import Mathlib

/-!
Verification development for the todogram social-graph engine.

The definitions below are a shallow embedding of the TypeScript services
that maintain the social graph (follow / follow-request / block /
close-friend edges together with the denormalized per-user counters):

* `FollowService.follow` / `FollowService.unfollow`   (follow.service)
* `FollowRequestsService.accept/reject/cancel/list*`  (follow-requests.service.ts)
* `BlockedService.blockUser` / `unblockUser`          (blocked.service)
* `BlockedController.add`                             (blocked.controller)
* `CloseFriendsService.addMany/removeMany`            (close-friends.service.ts)
* `RelationsService.getFollowers/getFollowing`        (relations.service)
* `PublicService.getFollowersOfUser/getFollowingOfUser` (public.service)

The relational store is a record of lists of rows; Prisma row operations
become list operations.  A Prisma `$transaction` is a chain in the
`Except` monad: an `Except.error` outcome means the transaction aborted
and no state change was committed (the caller observes the thrown
exception and the database as it was).  Error mapping:
`badRequest` = BadRequestException, `notFound` = NotFoundException,
`forbidden` = ForbiddenException, `uniqueViolation` = Prisma P2002,
`rowNotFoundErr` = Prisma P2025 (update of a missing row).
-/

/-- A row of the `User` table (the columns the graph engine touches).
Counters are SQL `INTEGER`, therefore `Int` here. -/
structure UserRec where
  uid : Nat
  isPrivate : Bool
  followersCount : Int
  followingCount : Int
  blockedCount : Int
  closeFriendsCount : Int
deriving Repr, DecidableEq

/-- A row of the `Follower` table: edge `followerId → followingId`,
with its serial primary key `eid` (used as pagination cursor). -/
structure FollowEdge where
  eid : Nat
  followerId : Nat
  followingId : Nat
deriving Repr, DecidableEq

/-- Models `FollowRequest.status` enum. -/
inductive ReqStatus
  | pending
  | accepted
  | rejected
deriving Repr, DecidableEq

/-- A row of the `FollowRequest` table, with serial primary key `rid`. -/
structure FollowRequestRow where
  rid : Nat
  requesterId : Nat
  targetId : Nat
  status : ReqStatus
deriving Repr, DecidableEq

/-- A row of the `Block` table (`blockerId` blocks `blockedId`). -/
structure BlockEdge where
  blockerId : Nat
  blockedId : Nat
deriving Repr, DecidableEq

/-- A row of the `CloseFriend` table (`ownerId` lists `friendId`). -/
structure CloseFriendEdge where
  ownerId : Nat
  friendId : Nat
deriving Repr, DecidableEq

/-- The database state.  `nextId` feeds the serial primary keys of the
tables whose ids the engine reads back (Follower, FollowRequest). -/
structure DB where
  users : List UserRec
  followers : List FollowEdge
  followRequests : List FollowRequestRow
  blocks : List BlockEdge
  closeFriends : List CloseFriendEdge
  nextId : Nat
deriving Repr, DecidableEq

/-- Exceptions the services throw, and Prisma's known request errors. -/
inductive Err
  | badRequest
  | notFound
  | forbidden
  | uniqueViolation
  | rowNotFoundErr
deriving Repr, DecidableEq

/-- Models `prisma.user.findUnique({ where: { id } })`. -/
def findUser (s : DB) (id : Nat) : Option UserRec :=
  s.users.find? (fun u => u.uid == id)

def userExists (s : DB) (id : Nat) : Bool :=
  (findUser s id).isSome

/-- Models `prisma.user.update({ where: { id }, data })`: throws P2025 when the
row is missing, otherwise rewrites every row whose id matches. -/
def userUpdate (s : DB) (id : Nat) (f : UserRec → UserRec) : Except Err DB :=
  if userExists s id then
    .ok { s with users := s.users.map (fun u => if u.uid == id then f u else u) }
  else .error .rowNotFoundErr

/-- Models `prisma.user.updateMany({ where: { id, …cond }, data })`: rewrites the
matching rows, affecting zero rows is not an error. -/
def userUpdateManyIf (s : DB) (id : Nat) (cond : UserRec → Bool) (f : UserRec → UserRec) : DB :=
  { s with users := s.users.map (fun u => if u.uid == id && cond u then f u else u) }

/-- Models `prisma.follower.findUnique({ where: { followerId_followingId } })`
reduced to existence. -/
def followerExists (s : DB) (a b : Nat) : Bool :=
  s.followers.any (fun e => e.followerId == a && e.followingId == b)

/-- Models `tx.follower.create`: the compound unique index
`Follower_followerId_followingId_key` makes a second identical edge a
P2002 unique-constraint violation. -/
def followerCreate (s : DB) (a b : Nat) : Except Err DB :=
  if followerExists s a b then .error .uniqueViolation
  else .ok { s with
    followers := s.followers ++ [⟨s.nextId, a, b⟩],
    nextId := s.nextId + 1 }

/-- Models `tx.follower.upsert` with `update: {}`: no-op when the edge exists,
insert when it does not. -/
def followerUpsertNoUpdate (s : DB) (a b : Nat) : DB :=
  if followerExists s a b then s
  else { s with
    followers := s.followers ++ [⟨s.nextId, a, b⟩],
    nextId := s.nextId + 1 }

/-- Models `tx.follower.deleteMany({ where })`: returns the affected-row count. -/
def followerDeleteMany (s : DB) (p : FollowEdge → Bool) : Nat × DB :=
  (s.followers.countP p,
   { s with followers := s.followers.filter (fun e => !(p e)) })

/-- Models `prisma.followRequest.findUnique({ where: { requesterId_targetId } })`. -/
def findRequest (s : DB) (r t : Nat) : Option FollowRequestRow :=
  s.followRequests.find? (fun q => q.requesterId == r && q.targetId == t)

/-- Models `prisma.followRequest.upsert({ update: { status: PENDING },
create: { …, status: PENDING } })`. -/
def requestUpsertPending (s : DB) (r t : Nat) : DB :=
  if (findRequest s r t).isSome then
    { s with followRequests := s.followRequests.map (fun q =>
        if q.requesterId == r && q.targetId == t then { q with status := .pending } else q) }
  else
    { s with
      followRequests := s.followRequests ++ [⟨s.nextId, r, t, .pending⟩],
      nextId := s.nextId + 1 }

/-- Models `followRequest.deleteMany({ where })`. -/
def requestDeleteMany (s : DB) (p : FollowRequestRow → Bool) : DB :=
  { s with followRequests := s.followRequests.filter (fun q => !(p q)) }

/-- Models `followRequest.update({ where: { requesterId_targetId }, data: { status } })`:
P2025 when the row is missing. -/
def requestUpdateStatus (s : DB) (r t : Nat) (st : ReqStatus) : Except Err DB :=
  if (findRequest s r t).isSome then
    .ok { s with followRequests := s.followRequests.map (fun q =>
        if q.requesterId == r && q.targetId == t then { q with status := st } else q) }
  else .error .rowNotFoundErr

/-- Models `prisma.block.findUnique({ where: { blockerId_blockedId } })` reduced
to existence. -/
def blockExists (s : DB) (a b : Nat) : Bool :=
  s.blocks.any (fun e => e.blockerId == a && e.blockedId == b)

/-- Models `tx.block.create`: P2002 when the (blocker, blocked) pair exists. -/
def blockCreate (s : DB) (a b : Nat) : Except Err DB :=
  if blockExists s a b then .error .uniqueViolation
  else .ok { s with blocks := s.blocks ++ [⟨a, b⟩] }

/-- Models `closeFriend` pair existence. -/
def cfExists (s : DB) (o f : Nat) : Bool :=
  s.closeFriends.any (fun e => e.ownerId == o && e.friendId == f)

/-- Models `tx.closeFriend.createMany({ data, skipDuplicates: true })`: inserts
the pairs in order, skipping any pair already present (including a pair
inserted earlier in the same batch), and returns the inserted-row count. -/
def cfCreateMany (s : DB) (o : Nat) (ids : List Nat) : Nat × DB :=
  match ids with
  | [] => (0, s)
  | i :: rest =>
    if cfExists s o i then cfCreateMany s o rest
    else
      let s1 : DB := { s with closeFriends := s.closeFriends ++ [⟨o, i⟩] }
      let r := cfCreateMany s1 o rest
      (r.1 + 1, r.2)

/-- Models `closeFriend.deleteMany({ where })`: returns the affected-row count. -/
def cfDeleteMany (s : DB) (p : CloseFriendEdge → Bool) : Nat × DB :=
  (s.closeFriends.countP p,
   { s with closeFriends := s.closeFriends.filter (fun e => !(p e)) })

/-- Models `[...new Set(l)]` in JS: deduplicate keeping first occurrences. -/
def firstDedupAux (seen : List Nat) : List Nat → List Nat
  | [] => []
  | x :: xs =>
    if x ∈ seen then firstDedupAux seen xs
    else x :: firstDedupAux (x :: seen) xs

def firstDedup (l : List Nat) : List Nat :=
  firstDedupAux [] l

/-! ## Service layer -/

/-- The three result messages `FollowService.follow` can return. -/
inductive FollowOutcome
  | alreadyFollowing
  | requestCreated
  | followed
deriving Repr, DecidableEq

/-- Models `FollowService.follow(userId, targetId)` (follow.service).

The non-transactional pre-checks (target lookup, `already` lookup) read
the database as of `s0`; the writes (the request upsert resp. the
`$transaction` body) run against `s1`.  In a sequential execution
`s0 = s1` (see `follow` below); when a concurrent identical follow
commits between the pre-check and the transaction, `s1` already holds
the edge and `followerCreate` raises the P2002 unique violation — note
the service has no try/catch, so the error propagates to the caller. -/
def followFrom (userId targetId : Nat) (s0 s1 : DB) : Except Err (FollowOutcome × DB) :=
  if userId == targetId then .error .badRequest
  else
    match findUser s0 targetId with
    | none => .error .notFound
    | some target =>
      if followerExists s0 userId targetId then .ok (.alreadyFollowing, s1)
      else if target.isPrivate then
        .ok (.requestCreated, requestUpsertPending s1 userId targetId)
      else
        match followerCreate s1 userId targetId with
        | .error e => .error e
        | .ok s2 =>
          match userUpdate s2 userId
              (fun u => { u with followingCount := u.followingCount + 1 }) with
          | .error e => .error e
          | .ok s3 =>
            match userUpdate s3 targetId
                (fun u => { u with followersCount := u.followersCount + 1 }) with
            | .error e => .error e
            | .ok s4 =>
              .ok (.followed, requestDeleteMany s4
                (fun q => q.requesterId == userId && q.targetId == targetId))

/-- Models `FollowService.follow` in a sequential execution. -/
def follow (userId targetId : Nat) (s : DB) : Except Err (FollowOutcome × DB) :=
  followFrom userId targetId s s

/-- Models `FollowService.unfollow(userId, targetId)` (follow.service): one
transaction deleting the edge (`BadRequestException` when zero rows were
affected) and decrementing both counters, each decrement conditioned on
the counter being positive via `updateMany`'s `where`. -/
def unfollow (userId targetId : Nat) (s : DB) : Except Err DB :=
  if userId == targetId then .error .badRequest
  else
    let del := followerDeleteMany s
      (fun e => e.followerId == userId && e.followingId == targetId)
    if del.1 == 0 then .error .badRequest
    else
      let s2 := userUpdateManyIf del.2 targetId
        (fun u => decide (0 < u.followersCount))
        (fun u => { u with followersCount := u.followersCount - 1 })
      let s3 := userUpdateManyIf s2 userId
        (fun u => decide (0 < u.followingCount))
        (fun u => { u with followingCount := u.followingCount - 1 })
      .ok s3

/-- Models `FollowRequestsService.acceptFollowRequest(targetId, requesterId)`
(follow-requests.service.ts): requires a PENDING request, then one
transaction upserting the edge (no-op update when it already exists),
incrementing both counters unconditionally, and marking the request
ACCEPTED. -/
def acceptFollowRequest (targetId requesterId : Nat) (s : DB) : Except Err DB :=
  match findRequest s requesterId targetId with
  | none => .error .notFound
  | some q =>
    if q.status == .pending then
      match userUpdate (followerUpsertNoUpdate s requesterId targetId) requesterId
          (fun u => { u with followingCount := u.followingCount + 1 }) with
      | .error e => .error e
      | .ok s2 =>
        match userUpdate s2 targetId
            (fun u => { u with followersCount := u.followersCount + 1 }) with
        | .error e => .error e
        | .ok s3 => requestUpdateStatus s3 requesterId targetId .accepted
    else .error .notFound

/-- Models `FollowRequestsService.rejectFollowRequest(targetId, requesterId)`:
requires a PENDING request, marks it REJECTED. -/
def rejectFollowRequest (targetId requesterId : Nat) (s : DB) : Except Err DB :=
  match findRequest s requesterId targetId with
  | none => .error .notFound
  | some q =>
    if q.status == .pending then
      requestUpdateStatus s requesterId targetId .rejected
    else .error .notFound

/-- Models `FollowRequestsService.cancelFollowRequest(viewerId, targetId)`:
deletes the viewer's PENDING request towards the target; deleting zero
rows is fine. -/
def cancelFollowRequest (viewerId targetId : Nat) (s : DB) : Except Err DB :=
  .ok (requestDeleteMany s (fun q =>
    q.requesterId == viewerId && q.targetId == targetId && q.status == .pending))

/-- The conditional "edge deleted, decrement both counters by the
affected-row count" step of `blockUser`'s transaction, for the deletion
of the follow edges `x → y` whose affected-row count was `n`. -/
def blockDecStep (x y n : Nat) (sd : DB) : Except Err DB :=
  if 0 < n then
    match userUpdate sd x
        (fun u => { u with followingCount := u.followingCount - (n : Int) }) with
    | .error e => .error e
    | .ok t => userUpdate t y
        (fun u => { u with followersCount := u.followersCount - (n : Int) })
  else .ok sd

/-- The `$transaction` body of `BlockedService.blockUser` (blocked.service):
create the block edge, delete the follow edges in both directions
decrementing the corresponding counters by the affected-row count when
positive, increment the blocker's `blockedCount`, then delete the
follow requests and close-friend edges between the pair in either
direction (with no `closeFriendsCount` adjustment). -/
def blockTx (ownerId targetId : Nat) (s : DB) : Except Err DB :=
  match blockCreate s ownerId targetId with
  | .error e => .error e
  | .ok s1 =>
    let delOwnerFollowing := followerDeleteMany s1
      (fun e => e.followerId == ownerId && e.followingId == targetId)
    match blockDecStep ownerId targetId delOwnerFollowing.1 delOwnerFollowing.2 with
    | .error e => .error e
    | .ok s3 =>
      let delTargetFollowing := followerDeleteMany s3
        (fun e => e.followerId == targetId && e.followingId == ownerId)
      match blockDecStep targetId ownerId delTargetFollowing.1 delTargetFollowing.2 with
      | .error e => .error e
      | .ok s5 =>
        match userUpdate s5 ownerId
            (fun u => { u with blockedCount := u.blockedCount + 1 }) with
        | .error e => .error e
        | .ok s6 =>
          let s7 := requestDeleteMany s6 (fun q =>
            (q.requesterId == ownerId && q.targetId == targetId) ||
            (q.requesterId == targetId && q.targetId == ownerId))
          .ok (cfDeleteMany s7 (fun e =>
            (e.ownerId == ownerId && e.friendId == targetId) ||
            (e.ownerId == targetId && e.friendId == ownerId))).2

/-- Models `BlockedService.blockUser(ownerId, targetId)`: `NotFoundException`
when the target is missing; runs `blockTx`; catches exactly the P2002
unique violation, in which case the block already exists and the
existing row is returned with the database unchanged (the transaction
rolled back); every other error is rethrown. -/
def blockUser (ownerId targetId : Nat) (s : DB) : Except Err (Option BlockEdge × DB) :=
  if !(userExists s targetId) then .error .notFound
  else
    match blockTx ownerId targetId s with
    | .ok s1 => .ok (some ⟨ownerId, targetId⟩, s1)
    | .error .uniqueViolation =>
      .ok (s.blocks.find? (fun e => e.blockerId == ownerId && e.blockedId == targetId), s)
    | .error e => .error e

/-- The block endpoint: `BlockedController.add` (and the equivalent
`UsersController.addToBlocked`) rejects a self-block with
`BadRequestException` before calling `BlockedService.blockUser`. -/
def blockAddEndpoint (reqUserId id : Nat) (s : DB) : Except Err (Option BlockEdge × DB) :=
  if reqUserId == id then .error .badRequest
  else blockUser reqUserId id s

/-- Models `BlockedService.unblockUser(ownerId, targetId)`: no-op (`removed:
false`) when no block edge exists; otherwise one transaction deleting
the edge and decrementing the blocker's `blockedCount`. -/
def unblockUser (ownerId targetId : Nat) (s : DB) : Except Err (Bool × DB) :=
  if !(blockExists s ownerId targetId) then .ok (false, s)
  else
    match userUpdate
        { s with blocks := s.blocks.filter (fun e =>
            !(e.blockerId == ownerId && e.blockedId == targetId)) } ownerId
        (fun u => { u with blockedCount := u.blockedCount - 1 }) with
    | .error e => .error e
    | .ok s2 => .ok (true, s2)

/-- Result record of `CloseFriendsService.addManyToCloseFriends`. -/
structure AddCloseFriendsResult where
  created : Nat
  requested : Nat
deriving Repr, DecidableEq

/-- Models `uniqueIds` of the close-friends services:
`[...new Set(friendIds)].filter((id) => id !== ownerId)`. -/
def uniqueCloseFriendIds (ownerId : Nat) (friendIds : List Nat) : List Nat :=
  (firstDedup friendIds).filter (fun i => i != ownerId)

/-- Models `toInsert` of `addManyToCloseFriends`: the unique ids that are
existing users. -/
def toInsertCloseFriendIds (ownerId : Nat) (friendIds : List Nat) (s : DB) : List Nat :=
  (uniqueCloseFriendIds ownerId friendIds).filter (fun i => userExists s i)

/-- Models `CloseFriendsService.addManyToCloseFriends(ownerId, friendIds)`
(close-friends.service.ts): `BadRequestException` on an empty input or
an empty set after dedup + dropping the owner's own id;
`NotFoundException` when none of the remaining ids is an existing user;
otherwise one transaction inserting the edges with `skipDuplicates` and
incrementing `closeFriendsCount` by the inserted-row count when
positive.  Returns that count as `created` (and the effective requested
count). -/
def addManyToCloseFriends (ownerId : Nat) (friendIds : List Nat) (s : DB) :
    Except Err (AddCloseFriendsResult × DB) :=
  if friendIds.isEmpty then .error .badRequest
  else if (uniqueCloseFriendIds ownerId friendIds).isEmpty then .error .badRequest
  else if (toInsertCloseFriendIds ownerId friendIds s).isEmpty then .error .notFound
  else
    match
      (if 0 < (cfCreateMany s ownerId (toInsertCloseFriendIds ownerId friendIds s)).1 then
        userUpdate (cfCreateMany s ownerId (toInsertCloseFriendIds ownerId friendIds s)).2 ownerId
          (fun u => { u with closeFriendsCount := u.closeFriendsCount +
            ((cfCreateMany s ownerId (toInsertCloseFriendIds ownerId friendIds s)).1 : Int) })
      else .ok (cfCreateMany s ownerId (toInsertCloseFriendIds ownerId friendIds s)).2) with
    | .error e => .error e
    | .ok s2 =>
      .ok ({ created := (cfCreateMany s ownerId (toInsertCloseFriendIds ownerId friendIds s)).1,
             requested := (uniqueCloseFriendIds ownerId friendIds).length }, s2)

/-- Models `CloseFriendsService.removeManyFromCloseFriends(ownerId, friendIds)`:
`BadRequestException` on empty input; empty effective set returns
`removed: 0`; otherwise one transaction deleting the matching edges and
decrementing `closeFriendsCount` by the deleted-row count when
positive. -/
def removeManyFromCloseFriends (ownerId : Nat) (friendIds : List Nat) (s : DB) :
    Except Err (Nat × DB) :=
  if friendIds.isEmpty then .error .badRequest
  else if (uniqueCloseFriendIds ownerId friendIds).isEmpty then .ok (0, s)
  else
    match
      (if 0 < (cfDeleteMany s (fun e => e.ownerId == ownerId &&
          (uniqueCloseFriendIds ownerId friendIds).contains e.friendId)).1 then
        userUpdate (cfDeleteMany s (fun e => e.ownerId == ownerId &&
            (uniqueCloseFriendIds ownerId friendIds).contains e.friendId)).2 ownerId
          (fun u => { u with closeFriendsCount := u.closeFriendsCount -
            ((cfDeleteMany s (fun e => e.ownerId == ownerId &&
              (uniqueCloseFriendIds ownerId friendIds).contains e.friendId)).1 : Int) })
      else .ok (cfDeleteMany s (fun e => e.ownerId == ownerId &&
          (uniqueCloseFriendIds ownerId friendIds).contains e.friendId)).2) with
    | .error e => .error e
    | .ok s2 =>
      .ok ((cfDeleteMany s (fun e => e.ownerId == ownerId &&
        (uniqueCloseFriendIds ownerId friendIds).contains e.friendId)).1, s2)

/-! ## Listings (cursor pagination) -/

/-- Descending insertion of a row by a `Nat` key. -/
def insertDescBy (key : α → Nat) (x : α) : List α → List α
  | [] => [x]
  | y :: ys => if key y ≤ key x then x :: y :: ys else y :: insertDescBy key x ys

/-- Models `orderBy: { id: 'desc' }`. -/
def sortDescBy (key : α → Nat) : List α → List α
  | [] => []
  | x :: xs => insertDescBy key x (sortDescBy key xs)

/-- Prisma `cursor: { id: c }, skip: 1`: position on the row whose key is
`c` and return the rows strictly after it (empty when the cursor row is
gone). -/
def applyCursor (key : α → Nat) (cursor : Option Nat) (l : List α) : List α :=
  match cursor with
  | none => l
  | some c => ((l.dropWhile (fun x => key x != c)).drop 1)

/-- The services guard the cursor with JS truthiness (`cursor ? … :
undefined`), so a cursor of `0` means "no cursor". -/
def jsCursor (cursor : Option Nat) : Option Nat :=
  match cursor with
  | some c => if c == 0 then none else some c
  | none => none

/-- Models `Math.min(Math.max(limit || 20, 1), 100)`: `0` (JS falsy, also the
`undefined` default) becomes 20, then the result is clamped to
`[1, 100]`. -/
def clampTake (limit : Nat) : Nat :=
  min (max (if limit == 0 then 20 else limit) 1) 100

/-- The rows `RelationsService.getFollowers` (relations.service) fetches:
edges into `meId`, id-descending, after the cursor, `take: limit + 1`
(fetch-ahead by one to decide `hasMore`). -/
def relGetFollowersRows (meId : Nat) (cursor : Option Nat) (limit : Nat) (s : DB) :
    List FollowEdge :=
  (applyCursor (fun e => e.eid) (jsCursor cursor)
    (sortDescBy (fun e => e.eid)
      (s.followers.filter (fun e => e.followingId == meId)))).take (limit + 1)

/-- Models `RelationsService.getFollowers(meId, cursor, limit)`: items are the
follower ids of the first `limit` fetched rows; `hasMore` is "more than
`limit` rows were fetched"; `nextCursor` is the edge id of the last item
when `hasMore` (the service reads `slice[slice.length - 1]`, modelled by
`getLast?`). -/
def relGetFollowers (meId : Nat) (cursor : Option Nat) (limit : Nat) (s : DB) :
    List Nat × Option Nat :=
  let rows := relGetFollowersRows meId cursor limit s
  let slice := rows.take limit
  (slice.map (fun e => e.followerId),
   if limit < rows.length then (slice.getLast?).map (fun e => e.eid) else none)

/-- The rows `RelationsService.getFollowing` fetches (edges out of
`meId`, `take: limit + 1`). -/
def relGetFollowingRows (meId : Nat) (cursor : Option Nat) (limit : Nat) (s : DB) :
    List FollowEdge :=
  (applyCursor (fun e => e.eid) (jsCursor cursor)
    (sortDescBy (fun e => e.eid)
      (s.followers.filter (fun e => e.followerId == meId)))).take (limit + 1)

/-- Models `RelationsService.getFollowing(meId, cursor, limit)`. -/
def relGetFollowing (meId : Nat) (cursor : Option Nat) (limit : Nat) (s : DB) :
    List Nat × Option Nat :=
  let rows := relGetFollowingRows meId cursor limit s
  let slice := rows.take limit
  (slice.map (fun e => e.followingId),
   if limit < rows.length then (slice.getLast?).map (fun e => e.eid) else none)

/-- The rows `FollowRequestsService.listIncomingFollowRequests` fetches:
PENDING requests towards `userId`, id-descending, after the cursor,
`take` clamped to `[1, 100]` — exactly `take`, no fetch-ahead. -/
def listIncomingRows (userId : Nat) (cursor : Option Nat) (limit : Nat) (s : DB) :
    List FollowRequestRow :=
  (applyCursor (fun q => q.rid) (jsCursor cursor)
    (sortDescBy (fun q => q.rid)
      (s.followRequests.filter (fun q =>
        q.targetId == userId && q.status == ReqStatus.pending)))).take (clampTake limit)

/-- Models `FollowRequestsService.listIncomingFollowRequests(userId, cursor,
limit)`: items are the requester ids; `nextCursor` is the id of the last
fetched row iff the page is exactly full (`rows.length === take`). -/
def listIncomingFollowRequests (userId : Nat) (cursor : Option Nat) (limit : Nat) (s : DB) :
    List Nat × Option Nat :=
  let rows := listIncomingRows userId cursor limit s
  (rows.map (fun q => q.requesterId),
   if rows.length == clampTake limit then (rows.getLast?).map (fun q => q.rid) else none)

/-- The rows `FollowRequestsService.listOutgoingFollowRequests` fetches. -/
def listOutgoingRows (userId : Nat) (cursor : Option Nat) (limit : Nat) (s : DB) :
    List FollowRequestRow :=
  (applyCursor (fun q => q.rid) (jsCursor cursor)
    (sortDescBy (fun q => q.rid)
      (s.followRequests.filter (fun q =>
        q.requesterId == userId && q.status == ReqStatus.pending)))).take (clampTake limit)

/-- Models `FollowRequestsService.listOutgoingFollowRequests(userId, cursor,
limit)`. -/
def listOutgoingFollowRequests (userId : Nat) (cursor : Option Nat) (limit : Nat) (s : DB) :
    List Nat × Option Nat :=
  let rows := listOutgoingRows userId cursor limit s
  (rows.map (fun q => q.targetId),
   if rows.length == clampTake limit then (rows.getLast?).map (fun q => q.rid) else none)

/-- Models `PublicService.getFollowersOfUser(viewerId, userId, cursor, limit)`
(public.service): `NotFoundException` when the target is missing,
`ForbiddenException('User isPrivate')` whenever the target is private —
the guard does not special-case `viewerId == userId`, nor an existing
follow, nor block state.  Items are projected to the follower ids (the
per-item profile/viewer decoration of the source is read-only and not
modelled). -/
def getFollowersOfUser (viewerId userId : Nat) (cursor : Option Nat) (limit : Nat) (s : DB) :
    Except Err (List Nat × Option Nat) :=
  match findUser s userId with
  | none => .error .notFound
  | some u =>
    if u.isPrivate then .error .forbidden
    else
      let rows := (applyCursor (fun e => e.eid) (jsCursor cursor)
        (sortDescBy (fun e => e.eid)
          (s.followers.filter (fun e => e.followingId == userId)))).take (clampTake limit)
      .ok (rows.map (fun e => e.followerId),
        if rows.length == clampTake limit then (rows.getLast?).map (fun e => e.eid) else none)

/-- Models `PublicService.getFollowingOfUser(viewerId, userId, cursor, limit)`:
same guard and shape, over the edges out of `userId`. -/
def getFollowingOfUser (viewerId userId : Nat) (cursor : Option Nat) (limit : Nat) (s : DB) :
    Except Err (List Nat × Option Nat) :=
  match findUser s userId with
  | none => .error .notFound
  | some u =>
    if u.isPrivate then .error .forbidden
    else
      let rows := (applyCursor (fun e => e.eid) (jsCursor cursor)
        (sortDescBy (fun e => e.eid)
          (s.followers.filter (fun e => e.followerId == userId)))).take (clampTake limit)
      .ok (rows.map (fun e => e.followingId),
        if rows.length == clampTake limit then (rows.getLast?).map (fun e => e.eid) else none)

/-! ## The engine's mutating operations as one step function -/

/-- The committed mutating operations of the graph engine. -/
inductive GraphOp
  | followOp (a b : Nat)
  | unfollowOp (a b : Nat)
  | acceptOp (t r : Nat)
  | rejectOp (t r : Nat)
  | cancelOp (r t : Nat)
  | blockOp (a b : Nat)
  | unblockOp (a b : Nat)
  | addCloseFriendsOp (o : Nat) (ids : List Nat)
  | removeCloseFriendsOp (o : Nat) (ids : List Nat)
deriving Repr, DecidableEq

/-- Run one engine operation sequentially against the database;
`Except.error` means the operation threw and committed nothing. -/
def applyOp (op : GraphOp) (s : DB) : Except Err DB :=
  match op with
  | .followOp a b => (follow a b s).map (fun r => r.2)
  | .unfollowOp a b => unfollow a b s
  | .acceptOp t r => acceptFollowRequest t r s
  | .rejectOp t r => rejectFollowRequest t r s
  | .cancelOp r t => cancelFollowRequest r t s
  | .blockOp a b => (blockAddEndpoint a b s).map (fun r => r.2)
  | .unblockOp a b => (unblockUser a b s).map (fun r => r.2)
  | .addCloseFriendsOp o ids => (addManyToCloseFriends o ids s).map (fun r => r.2)
  | .removeCloseFriendsOp o ids => (removeManyFromCloseFriends o ids s).map (fun r => r.2)

/-! ## Counter invariants -/

-- (invariant definitions below; the per-operation preservation lemmas
-- and the invariant theorem follow them)

/-- Models `|{ e ∈ FollowEdge : e.followerId = uid }|`. -/
def countFollowingOf (s : DB) (uid : Nat) : Nat :=
  s.followers.countP (fun e => e.followerId == uid)

/-- Models `|{ e ∈ FollowEdge : e.followingId = uid }|`. -/
def countFollowersOf (s : DB) (uid : Nat) : Nat :=
  s.followers.countP (fun e => e.followingId == uid)

/-- Models `|{ e ∈ CloseFriendEdge : e.ownerId = uid }|`. -/
def countCloseFriendsOf (s : DB) (uid : Nat) : Nat :=
  s.closeFriends.countP (fun e => e.ownerId == uid)

/-- Models `followingCount(u) = |{ e : e.followerId = u }|` for every user row. -/
def FollowingCountsOk (s : DB) : Prop :=
  ∀ u ∈ s.users, u.followingCount = (countFollowingOf s u.uid : Int)

/-- Models `followersCount(u) = |{ e : e.followingId = u }|` for every user row. -/
def FollowersCountsOk (s : DB) : Prop :=
  ∀ u ∈ s.users, u.followersCount = (countFollowersOf s u.uid : Int)

/-- Models `closeFriendsCount(u) = |{ e : e.ownerId = u }|` for every user row. -/
def CloseFriendsCountsOk (s : DB) : Prop :=
  ∀ u ∈ s.users, u.closeFriendsCount = (countCloseFriendsOf s u.uid : Int)

/-- The three counter families claimed by the data-model invariant. -/
def CountersOk (s : DB) : Prop :=
  FollowingCountsOk s ∧ FollowersCountsOk s ∧ CloseFriendsCountsOk s

/-- At most one `FollowEdge` per ordered pair (the compound unique index
`Follower_followerId_followingId_key`). -/
def FollowPairsNodup (s : DB) : Prop :=
  (s.followers.map (fun e => (e.followerId, e.followingId))).Nodup

instance : DecidablePred FollowingCountsOk := fun s =>
  inferInstanceAs (Decidable (∀ u ∈ s.users, _))

instance : DecidablePred FollowersCountsOk := fun s =>
  inferInstanceAs (Decidable (∀ u ∈ s.users, _))

instance : DecidablePred CloseFriendsCountsOk := fun s =>
  inferInstanceAs (Decidable (∀ u ∈ s.users, _))

instance : DecidablePred CountersOk := fun s =>
  inferInstanceAs (Decidable (_ ∧ _ ∧ _))

instance : DecidablePred FollowPairsNodup := fun s =>
  inferInstanceAs (Decidable (List.Nodup _))

/-- Rewrite all user rows (the state shape `user.update` produces). -/
def mapUsers (s : DB) (g : UserRec → UserRec) : DB :=
  { s with users := s.users.map g }

/-- Two users, user 1 owning one close-friend edge to user 2; counters
consistent. -/
def exC1 : DB :=
  ⟨[⟨1, false, 0, 0, 0, 1⟩, ⟨2, false, 0, 0, 0, 0⟩], [], [], [], [⟨1, 2⟩], 10⟩

/-- The state `blockOp 1 2` commits from `exC1`: the close-friend edge is
gone but `closeFriendsCount(1)` is still 1. -/
def exC1After : DB :=
  ⟨[⟨1, false, 0, 0, 1, 1⟩, ⟨2, false, 0, 0, 0, 0⟩], [], [], [⟨1, 2⟩], [], 10⟩

/-- Two users, no edges, zero counters. -/
def exTwoUsers : DB :=
  ⟨[⟨1, false, 0, 0, 0, 0⟩, ⟨2, false, 0, 0, 0, 0⟩], [], [], [], [], 10⟩

/-- Models `exTwoUsers` after a committed `follow 1 2`. -/
def exTwoUsersFollowed : DB :=
  ⟨[⟨1, false, 0, 1, 0, 0⟩, ⟨2, false, 1, 0, 0, 0⟩], [⟨10, 1, 2⟩], [], [], [], 11⟩

/-- The database the loser of a follow race saw at pre-check time: no
edge 1→2 yet. -/
def exC2Pre : DB :=
  ⟨[⟨1, false, 0, 0, 0, 0⟩, ⟨2, false, 0, 0, 0, 0⟩], [], [], [], [], 10⟩

/-- The database when the loser's transaction body runs: the concurrent
identical follow has already inserted the edge. -/
def exC2Tx : DB :=
  ⟨[⟨1, false, 0, 0, 0, 0⟩, ⟨2, false, 0, 0, 0, 0⟩], [⟨9, 1, 2⟩], [], [], [], 10⟩

/-- Mutual follow between users 1 and 2, a pending request 2→1 and a
close-friend edge 1→2; counters consistent. -/
def exC3 : DB :=
  ⟨[⟨1, false, 1, 1, 0, 1⟩, ⟨2, false, 1, 1, 0, 0⟩],
   [⟨5, 1, 2⟩, ⟨6, 2, 1⟩], [⟨7, 2, 1, .pending⟩], [], [⟨1, 2⟩], 10⟩

/-- Three users; users 2 and 3 follow user 1. -/
def exC4 : DB :=
  ⟨[⟨1, false, 2, 0, 0, 0⟩, ⟨2, false, 0, 1, 0, 0⟩, ⟨3, false, 0, 1, 0, 0⟩],
   [⟨5, 2, 1⟩, ⟨6, 3, 1⟩], [], [], [], 10⟩

/-- A public user 1 and a private user 2. -/
def exC5 : DB :=
  ⟨[⟨1, false, 0, 0, 0, 0⟩, ⟨2, true, 0, 0, 0, 0⟩], [], [], [], [], 10⟩

/-- User 1 follows user 2; counters consistent. -/
def exC6 : DB :=
  ⟨[⟨1, false, 0, 1, 0, 0⟩, ⟨2, false, 1, 0, 0, 0⟩], [⟨5, 1, 2⟩], [], [], [], 10⟩

/-- One private user 2 with no followers. -/
def exC9 : DB :=
  ⟨[⟨2, true, 0, 0, 0, 0⟩], [], [], [], [], 10⟩

/-- User 1 follows private user 2 while a PENDING request 1→2 also
exists; counters consistent. -/
def exC10 : DB :=
  ⟨[⟨1, false, 0, 1, 0, 0⟩, ⟨2, true, 1, 0, 0, 0⟩], [⟨5, 1, 2⟩],
   [⟨6, 1, 2, .pending⟩], [], [], 10⟩

/-! ## Helper lemmas -/

theorem countP_split {α : Type} (p q : α → Bool) (l : List α) :
    l.countP p = l.countP (fun x => p x && q x) + l.countP (fun x => p x && !(q x)) := by
  induction l with
  | nil => simp
  | cons x xs ih =>
    simp only [List.countP_cons, ih]
    cases hp : p x <;> cases hq : q x <;> simp [hp, hq] <;> omega

theorem filter_not_of_countP_zero {α : Type} (p : α → Bool) (l : List α)
    (h : l.countP p = 0) : l.filter (fun x => !(p x)) = l := by
  rw [List.filter_eq_self]
  intro a ha
  simp [List.countP_eq_zero.1 h a ha]

/-- At most one follow edge matches a given ordered pair when the pair
projection is duplicate-free. -/
theorem countP_pair_le_one (l : List FollowEdge)
    (h : (l.map (fun e => (e.followerId, e.followingId))).Nodup) (a b : Nat) :
    l.countP (fun e => e.followerId == a && e.followingId == b) ≤ 1 := by
  induction l with
  | nil => simp
  | cons e es ih =>
    rw [List.map_cons, List.nodup_cons] at h
    rw [List.countP_cons]
    by_cases hp : (e.followerId == a && e.followingId == b) = true
    · have hz : es.countP (fun x => x.followerId == a && x.followingId == b) = 0 := by
        rw [List.countP_eq_zero]
        intro x hx hxp
        apply h.1
        have hea : e.followerId = a ∧ e.followingId = b := by
          simpa using hp
        have hxa : x.followerId = a ∧ x.followingId = b := by
          simpa using hxp
        have : (x.followerId, x.followingId) = (e.followerId, e.followingId) := by
          rw [hea.1, hea.2, hxa.1, hxa.2]
        rw [← this]
        exact List.mem_map_of_mem _ hx
      rw [hz]
      simp [hp]
    · have := ih h.2
      simp only [Bool.not_eq_true] at hp
      rw [hp]
      simpa using this

theorem userUpdate_ok (s : DB) (id : Nat) (f : UserRec → UserRec) (s' : DB)
    (h : userUpdate s id f = .ok s') :
    s'.users = s.users.map (fun u => if u.uid == id then f u else u) ∧
    s'.followers = s.followers ∧ s'.followRequests = s.followRequests ∧
    s'.blocks = s.blocks ∧ s'.closeFriends = s.closeFriends ∧ s'.nextId = s.nextId := by
  unfold userUpdate at h
  split at h
  · cases h
    exact ⟨rfl, rfl, rfl, rfl, rfl, rfl⟩
  · cases h

theorem findUser_map_users (s s' : DB) (g : UserRec → UserRec)
    (husers : s'.users = s.users.map g) (hg : ∀ u, (g u).uid = u.uid) (x : Nat) :
    findUser s' x = (findUser s x).map g := by
  unfold findUser
  rw [husers, List.find?_map]
  have hpred : ((fun u : UserRec => u.uid == x) ∘ g) = (fun u : UserRec => u.uid == x) := by
    funext u
    simp [Function.comp, hg]
  rw [hpred]

theorem findRequest_map_requests (s s' : DB) (g : FollowRequestRow → FollowRequestRow)
    (hreqs : s'.followRequests = s.followRequests.map g)
    (hg : ∀ q, (g q).requesterId = q.requesterId ∧ (g q).targetId = q.targetId)
    (r t : Nat) :
    findRequest s' r t = (findRequest s r t).map g := by
  unfold findRequest
  rw [hreqs, List.find?_map]
  have hpred : ((fun q : FollowRequestRow => q.requesterId == r && q.targetId == t) ∘ g)
      = (fun q : FollowRequestRow => q.requesterId == r && q.targetId == t) := by
    funext q
    simp [Function.comp, (hg q).1, (hg q).2]
  rw [hpred]

theorem countersOk_congr (s s' : DB)
    (hu : s'.users = s.users) (hf : s'.followers = s.followers)
    (hc : s'.closeFriends = s.closeFriends) (h : CountersOk s) : CountersOk s' := by
  obtain ⟨h1, h2, h3⟩ := h
  refine ⟨?_, ?_, ?_⟩ <;> intro u hu' <;> rw [hu] at hu'
  · unfold countFollowingOf
    rw [hf]
    exact h1 u hu'
  · unfold countFollowersOf
    rw [hf]
    exact h2 u hu'
  · unfold countCloseFriendsOf
    rw [hc]
    exact h3 u hu'

/-- Rewriting the user rows with a function that preserves the id and the
three tracked counters (e.g. a `blockedCount` update) preserves the
counter invariant when the counted edge sets are unchanged. -/
theorem countersOk_map_untracked (s s' : DB) (g : UserRec → UserRec)
    (husers : s'.users = s.users.map g)
    (hg : ∀ u, (g u).uid = u.uid ∧ (g u).followingCount = u.followingCount ∧
      (g u).followersCount = u.followersCount ∧ (g u).closeFriendsCount = u.closeFriendsCount)
    (hf : s'.followers = s.followers) (hc : s'.closeFriends = s.closeFriends)
    (h : CountersOk s) : CountersOk s' := by
  obtain ⟨h1, h2, h3⟩ := h
  refine ⟨?_, ?_, ?_⟩ <;> intro v hv <;> rw [husers] at hv <;>
    obtain ⟨u, hu, rfl⟩ := List.mem_map.1 hv
  · unfold countFollowingOf
    rw [hf, (hg u).1, (hg u).2.1]
    exact h1 u hu
  · unfold countFollowersOf
    rw [hf, (hg u).1, (hg u).2.2.1]
    exact h2 u hu
  · unfold countCloseFriendsOf
    rw [hc, (hg u).1, (hg u).2.2.2]
    exact h3 u hu

theorem requestUpsertPending_fields (s : DB) (r t : Nat) :
    (requestUpsertPending s r t).users = s.users ∧
    (requestUpsertPending s r t).followers = s.followers ∧
    (requestUpsertPending s r t).blocks = s.blocks ∧
    (requestUpsertPending s r t).closeFriends = s.closeFriends := by
  unfold requestUpsertPending
  split <;> exact ⟨rfl, rfl, rfl, rfl⟩

theorem requestDeleteMany_fields (s : DB) (p : FollowRequestRow → Bool) :
    (requestDeleteMany s p).users = s.users ∧
    (requestDeleteMany s p).followers = s.followers ∧
    (requestDeleteMany s p).blocks = s.blocks ∧
    (requestDeleteMany s p).closeFriends = s.closeFriends ∧
    (requestDeleteMany s p).nextId = s.nextId :=
  ⟨rfl, rfl, rfl, rfl, rfl⟩

/-- Inserting the follow edge `a → b` and then incrementing
`followingCount(a)` and `followersCount(b)` (the shared commit shape of
the public-follow transaction and of request acceptance) keeps the
counters consistent. -/
theorem countersOk_edge_insert (s s3 s4 : DB) (a b : Nat)
    (h3 : userUpdate
        { s with followers := s.followers ++ [⟨s.nextId, a, b⟩], nextId := s.nextId + 1 } a
        (fun u => { u with followingCount := u.followingCount + 1 }) = .ok s3)
    (h4 : userUpdate s3 b
        (fun u => { u with followersCount := u.followersCount + 1 }) = .ok s4)
    (h : CountersOk s) : CountersOk s4 := by
  obtain ⟨hu3, hf3, _, _, hc3, _⟩ := userUpdate_ok _ _ _ _ h3
  obtain ⟨hu4, hf4, _, _, hc4, _⟩ := userUpdate_ok _ _ _ _ h4
  obtain ⟨h1, h2, hcf⟩ := h
  have hpt : ∀ u : UserRec,
      ((fun v : UserRec => if v.uid == b then { v with followersCount := v.followersCount + 1 } else v)
        (if u.uid == a then { u with followingCount := u.followingCount + 1 } else u))
      = { u with
          followingCount := if u.uid == a then u.followingCount + 1 else u.followingCount,
          followersCount := if u.uid == b then u.followersCount + 1 else u.followersCount } := by
    intro u
    by_cases hua : u.uid = a <;> by_cases hub : u.uid = b
    · have hab : a = b := hua.symm.trans hub
      simp [hua, hub, hab]
    · have hab : (a == b) = false := by
        rw [beq_eq_false_iff_ne]
        exact fun h => hub (hua.trans h)
      simp [hua, hub, hab]
    · have hab : ¬b = a := fun h => hua (hub.trans h)
      simp [hua, hub, hab]
    · simp [hua, hub]
  have husers : s4.users = s.users.map (fun u =>
      { u with
        followingCount := if u.uid == a then u.followingCount + 1 else u.followingCount,
        followersCount := if u.uid == b then u.followersCount + 1 else u.followersCount }) := by
    rw [hu4, hu3, List.map_map]
    exact List.map_congr_left (fun u _ => hpt u)
  have hfols : s4.followers = s.followers ++ [⟨s.nextId, a, b⟩] := by
    rw [hf4, hf3]
  have hcfs : s4.closeFriends = s.closeFriends := by
    rw [hc4, hc3]
  refine ⟨?_, ?_, ?_⟩ <;> intro v hv <;> rw [husers] at hv <;>
    obtain ⟨u, hu, rfl⟩ := List.mem_map.1 hv
  · have hbase := h1 u hu
    unfold countFollowingOf at hbase ⊢
    rw [hfols, List.countP_append]
    by_cases hua : u.uid = a
    · subst hua
      simp [List.countP_cons, hbase]
    · have hne : (a == u.uid) = false := by
        rw [beq_eq_false_iff_ne]
        exact fun h => hua h.symm
      simp [List.countP_cons, hua, hne, hbase]
  · have hbase := h2 u hu
    unfold countFollowersOf at hbase ⊢
    rw [hfols, List.countP_append]
    by_cases hub : u.uid = b
    · subst hub
      simp [List.countP_cons, hbase]
    · have hne : (b == u.uid) = false := by
        rw [beq_eq_false_iff_ne]
        exact fun h => hub h.symm
      simp [List.countP_cons, hub, hne, hbase]
  · have hbase := hcf u hu
    unfold countCloseFriendsOf at hbase ⊢
    rw [hcfs]
    exact hbase

theorem requestUpdateStatus_ok (s : DB) (r t : Nat) (st : ReqStatus) (s' : DB)
    (h : requestUpdateStatus s r t st = .ok s') :
    s'.users = s.users ∧ s'.followers = s.followers ∧ s'.blocks = s.blocks ∧
    s'.closeFriends = s.closeFriends ∧ s'.nextId = s.nextId ∧
    s'.followRequests = s.followRequests.map (fun q =>
      if q.requesterId == r && q.targetId == t then { q with status := st } else q) := by
  unfold requestUpdateStatus at h
  split at h
  · cases h
    exact ⟨rfl, rfl, rfl, rfl, rfl, rfl⟩
  · cases h

theorem blockDecStep_fields (x y n : Nat) (sd s' : DB)
    (hc : blockDecStep x y n sd = .ok s') :
    s'.followRequests = sd.followRequests ∧ s'.blocks = sd.blocks ∧
    s'.closeFriends = sd.closeFriends ∧ s'.followers = sd.followers ∧ s'.nextId = sd.nextId := by
  unfold blockDecStep at hc
  split at hc
  · split at hc
    · cases hc
    rename_i t ht
    obtain ⟨_, f1, q1, b1, c1, n1⟩ := userUpdate_ok _ _ _ _ ht
    obtain ⟨_, f2, q2, b2, c2, n2⟩ := userUpdate_ok _ _ _ _ hc
    exact ⟨q2.trans q1, b2.trans b1, c2.trans c1, f2.trans f1, n2.trans n1⟩
  · cases hc
    exact ⟨rfl, rfl, rfl, rfl, rfl⟩

/-- The "delete the follow edges x → y, then decrement `followingCount(x)`
and `followersCount(y)` by the affected-row count when it is positive"
step of the block transaction keeps the counters consistent. -/
theorem blockDecStep_countersOk (x y : Nat) (s s' : DB) (h : CountersOk s)
    (hc : blockDecStep x y
        (s.followers.countP (fun e => e.followerId == x && e.followingId == y))
        { s with followers := s.followers.filter (fun e => !(e.followerId == x && e.followingId == y)) }
        = .ok s') : CountersOk s' := by
  obtain ⟨h1, h2, hcf⟩ := h
  unfold blockDecStep at hc
  split at hc
  case isFalse hpos =>
    cases hc
    have h0 : s.followers.countP (fun e => e.followerId == x && e.followingId == y) = 0 := by
      omega
    have hfe : s.followers.filter (fun e => !(e.followerId == x && e.followingId == y))
        = s.followers := filter_not_of_countP_zero _ _ h0
    rw [hfe]
    exact ⟨h1, h2, hcf⟩
  case isTrue hpos =>
    split at hc
    · cases hc
    rename_i t ht
    obtain ⟨hu1, hf1, _, _, hc1, _⟩ := userUpdate_ok _ _ _ _ ht
    obtain ⟨hu2, hf2, _, _, hc2, _⟩ := userUpdate_ok _ _ _ _ hc
    have hpt : ∀ v : UserRec,
        ((fun w : UserRec => if w.uid == y then
            { w with followersCount := w.followersCount -
                (s.followers.countP (fun e => e.followerId == x && e.followingId == y) : Int) }
          else w)
          (if v.uid == x then
            { v with followingCount := v.followingCount -
                (s.followers.countP (fun e => e.followerId == x && e.followingId == y) : Int) }
          else v))
        = { v with
            followingCount :=
              if v.uid == x then v.followingCount -
                (s.followers.countP (fun e => e.followerId == x && e.followingId == y) : Int)
              else v.followingCount,
            followersCount :=
              if v.uid == y then v.followersCount -
                (s.followers.countP (fun e => e.followerId == x && e.followingId == y) : Int)
              else v.followersCount } := by
      intro v
      by_cases hvx : v.uid = x <;> by_cases hvy : v.uid = y
      · have hxy : x = y := hvx.symm.trans hvy
        simp [hvx, hvy, hxy]
      · have hxy : (x == y) = false := by
          rw [beq_eq_false_iff_ne]
          exact fun hh => hvy (hvx.trans hh)
        simp [hvx, hvy, hxy]
      · have hxy : ¬y = x := fun hh => hvx (hvy.trans hh)
        simp [hvx, hvy, hxy]
      · simp [hvx, hvy]
    have husers : s'.users = s.users.map (fun v =>
        { v with
          followingCount :=
            if v.uid == x then v.followingCount -
              (s.followers.countP (fun e => e.followerId == x && e.followingId == y) : Int)
            else v.followingCount,
          followersCount :=
            if v.uid == y then v.followersCount -
              (s.followers.countP (fun e => e.followerId == x && e.followingId == y) : Int)
            else v.followersCount }) := by
      rw [hu2, hu1, List.map_map]
      exact List.map_congr_left (fun v _ => hpt v)
    have hfols : s'.followers
        = s.followers.filter (fun e => !(e.followerId == x && e.followingId == y)) := by
      rw [hf2, hf1]
    have hcfs : s'.closeFriends = s.closeFriends := by
      rw [hc2, hc1]
    refine ⟨?_, ?_, ?_⟩ <;> intro v hv <;> rw [husers] at hv <;>
      obtain ⟨u, hu, rfl⟩ := List.mem_map.1 hv
    · have hbase := h1 u hu
      unfold countFollowingOf at hbase ⊢
      rw [hfols]
      simp only [List.countP_filter]
      by_cases hux : u.uid = x
      · subst hux
        have hsum := countP_split (fun e : FollowEdge => e.followerId == u.uid)
          (fun e => e.followerId == u.uid && e.followingId == y) s.followers
        have heqp : s.followers.countP
            (fun e => e.followerId == u.uid && (e.followerId == u.uid && e.followingId == y))
            = s.followers.countP (fun e => e.followerId == u.uid && e.followingId == y) := by
          apply List.countP_congr
          intro e he
          cases hfe : (e.followerId == u.uid) <;> simp [hfe]
        rw [heqp] at hsum
        simp only [beq_self_eq_true, if_true]
        rw [hbase]
        have hrest : s.followers.countP
            (fun e => e.followerId == u.uid && !(e.followerId == u.uid && e.followingId == y))
            = s.followers.countP (fun e => e.followerId == u.uid)
              - s.followers.countP (fun e => e.followerId == u.uid && e.followingId == y) := by
          omega
        rw [hrest]
        have hle : s.followers.countP (fun e => e.followerId == u.uid && e.followingId == y)
            ≤ s.followers.countP (fun e => e.followerId == u.uid) := by
          omega
        omega
      · have hne : (u.uid == x) = false := by
          rw [beq_eq_false_iff_ne]
          exact hux
        simp only [hne, Bool.false_eq_true, if_false]
        rw [hbase]
        congr 1
        apply List.countP_congr
        intro e he
        cases hfe : (e.followerId == u.uid)
        · simp [hfe]
        · have : (e.followerId == x) = false := by
            rw [beq_eq_false_iff_ne]
            intro hcon
            exact hux (by rw [← (beq_iff_eq.1 hfe), hcon])
          simp [hfe, this]
    · have hbase := h2 u hu
      unfold countFollowersOf at hbase ⊢
      rw [hfols]
      simp only [List.countP_filter]
      by_cases huy : u.uid = y
      · subst huy
        have hsum := countP_split (fun e : FollowEdge => e.followingId == u.uid)
          (fun e => e.followerId == x && e.followingId == u.uid) s.followers
        have heqp : s.followers.countP
            (fun e => e.followingId == u.uid && (e.followerId == x && e.followingId == u.uid))
            = s.followers.countP (fun e => e.followerId == x && e.followingId == u.uid) := by
          apply List.countP_congr
          intro e he
          cases hfe : (e.followingId == u.uid) <;> cases hfa : (e.followerId == x) <;>
            simp [hfe, hfa]
        rw [heqp] at hsum
        simp only [beq_self_eq_true, if_true]
        rw [hbase]
        have hrest : s.followers.countP
            (fun e => e.followingId == u.uid && !(e.followerId == x && e.followingId == u.uid))
            = s.followers.countP (fun e => e.followingId == u.uid)
              - s.followers.countP (fun e => e.followerId == x && e.followingId == u.uid) := by
          omega
        rw [hrest]
        omega
      · have hne : (u.uid == y) = false := by
          rw [beq_eq_false_iff_ne]
          exact huy
        simp only [hne, Bool.false_eq_true, if_false]
        rw [hbase]
        congr 1
        apply List.countP_congr
        intro e he
        cases hfe : (e.followingId == u.uid)
        · simp [hfe]
        · have : (e.followingId == y) = false := by
            rw [beq_eq_false_iff_ne]
            intro hcon
            exact huy (by rw [← (beq_iff_eq.1 hfe), hcon])
          simp [hfe, this]
    · have hbase := hcf u hu
      unfold countCloseFriendsOf at hbase ⊢
      rw [hcfs]
      exact hbase

theorem mem_firstDedupAux (l : List Nat) : ∀ (seen : List Nat) (y : Nat),
    y ∈ firstDedupAux seen l ↔ (y ∈ l ∧ y ∉ seen) := by
  induction l with
  | nil =>
    intro seen y
    simp [firstDedupAux]
  | cons x xs ih =>
    intro seen y
    unfold firstDedupAux
    split
    · rename_i hxseen
      rw [ih seen y]
      constructor
      · rintro ⟨hy, hns⟩
        exact ⟨List.mem_cons_of_mem _ hy, hns⟩
      · rintro ⟨hy, hns⟩
        rcases List.mem_cons.1 hy with rfl | hy'
        · exact absurd hxseen hns
        · exact ⟨hy', hns⟩
    · rename_i hxseen
      rw [List.mem_cons, ih (x :: seen) y]
      constructor
      · rintro (rfl | ⟨hy, hns⟩)
        · exact ⟨List.mem_cons_self _ _, hxseen⟩
        · exact ⟨List.mem_cons_of_mem _ hy,
            fun hcon => hns (List.mem_cons_of_mem _ hcon)⟩
      · rintro ⟨hy, hns⟩
        rcases List.mem_cons.1 hy with rfl | hy'
        · exact Or.inl rfl
        · by_cases hyx : y = x
          · exact Or.inl hyx
          · exact Or.inr ⟨hy', fun hcon => by
              rcases List.mem_cons.1 hcon with h1 | h2
              · exact hyx h1
              · exact hns h2⟩

theorem nodup_firstDedupAux (l : List Nat) : ∀ seen : List Nat,
    (firstDedupAux seen l).Nodup := by
  induction l with
  | nil =>
    intro seen
    simp [firstDedupAux]
  | cons x xs ih =>
    intro seen
    unfold firstDedupAux
    split
    · exact ih seen
    · rw [List.nodup_cons]
      refine ⟨?_, ih (x :: seen)⟩
      intro hcon
      exact ((mem_firstDedupAux xs (x :: seen) x).1 hcon).2 (List.mem_cons_self _ _)

theorem firstDedup_nodup (l : List Nat) : (firstDedup l).Nodup :=
  nodup_firstDedupAux l []

/-- Full characterisation of `cfCreateMany` on a duplicate-free batch:
the inserted rows are exactly the pairs not already present, in order,
and the returned count is their number. -/
theorem cfCreateMany_spec (o : Nat) (ids : List Nat) : ∀ s : DB, ids.Nodup →
    (cfCreateMany s o ids).1 = (ids.filter (fun i => !(cfExists s o i))).length ∧
    (cfCreateMany s o ids).2 = { s with closeFriends := s.closeFriends ++
      (ids.filter (fun i => !(cfExists s o i))).map (fun i => (⟨o, i⟩ : CloseFriendEdge)) } := by
  induction ids with
  | nil =>
    intro s _
    simp [cfCreateMany]
  | cons i rest ih =>
    intro s hnd
    rw [List.nodup_cons] at hnd
    unfold cfCreateMany
    by_cases hex : cfExists s o i = true
    · rw [if_pos hex]
      have hfe : (i :: rest).filter (fun j => !(cfExists s o j))
          = rest.filter (fun j => !(cfExists s o j)) := by
        rw [List.filter_cons]
        simp [hex]
      rw [hfe]
      exact ih s hnd.2
    · rw [if_neg hex]
      have hex' : cfExists s o i = false := by
        cases hcf : cfExists s o i
        · rfl
        · exact absurd hcf hex
      have hcongr : ∀ j ∈ rest,
          (cfExists { s with closeFriends := s.closeFriends ++ [⟨o, i⟩] } o j)
          = cfExists s o j := by
        intro j hj
        have hji : (i == j) = false := by
          rw [beq_eq_false_iff_ne]
          intro hcon
          exact hnd.1 (hcon ▸ hj)
        unfold cfExists
        rw [List.any_append]
        simp [hji]
      obtain ⟨ihn, ihs⟩ := ih { s with closeFriends := s.closeFriends ++ [⟨o, i⟩] } hnd.2
      have hfrest : rest.filter (fun j =>
          !(cfExists { s with closeFriends := s.closeFriends ++ [⟨o, i⟩] } o j))
          = rest.filter (fun j => !(cfExists s o j)) := by
        apply List.filter_congr
        intro j hj
        rw [hcongr j hj]
      rw [hfrest] at ihn ihs
      have hfc : (i :: rest).filter (fun j => !(cfExists s o j))
          = i :: rest.filter (fun j => !(cfExists s o j)) := by
        rw [List.filter_cons]
        simp [hex']
      constructor
      · rw [hfc]
        simp only [List.length_cons]
        rw [ihn]
      · rw [ihs, hfc]
        simp [List.append_assoc]

/-- The `toInsert` id batch is duplicate-free. -/
theorem toInsert_nodup (o : Nat) (ids : List Nat) (s : DB) :
    (toInsertCloseFriendIds o ids s).Nodup := by
  unfold toInsertCloseFriendIds uniqueCloseFriendIds
  exact ((firstDedup_nodup ids).filter _).filter _

/-- A committed bulk close-friend add keeps the counters consistent. -/
theorem addCF_countersOk (o : Nat) (ids : List Nat) (s s' : DB) (res : AddCloseFriendsResult)
    (h : CountersOk s) (hc : addManyToCloseFriends o ids s = .ok (res, s')) : CountersOk s' := by
  obtain ⟨h1, h2, hcf⟩ := h
  unfold addManyToCloseFriends at hc
  split at hc
  · cases hc
  split at hc
  · cases hc
  split at hc
  · cases hc
  obtain ⟨hn, hs⟩ := cfCreateMany_spec o _ s (toInsert_nodup o ids s)
  split at hc
  · cases hc
  rename_i s2 h2'
  cases hc
  split at h2'
  case isFalse hzero =>
    injection h2' with h2'
    subst h2'
    have hend : ((toInsertCloseFriendIds o ids s).filter
        (fun i => !(cfExists s o i))).map (fun i => (⟨o, i⟩ : CloseFriendEdge)) = [] := by
      rw [← List.length_eq_zero, List.length_map, ← hn]
      omega
    rw [hs, hend]
    refine countersOk_congr s _ rfl rfl ?_ ⟨h1, h2, hcf⟩
    simp
  case isTrue hpos =>
    obtain ⟨hu2, hf2, _, _, hc2, _⟩ := userUpdate_ok _ _ _ _ h2'
    have husers : s'.users = s.users.map (fun u => if u.uid == o then
        { u with closeFriendsCount := u.closeFriendsCount +
          ((cfCreateMany s o (toInsertCloseFriendIds o ids s)).1 : Int) } else u) := by
      rw [hu2, hs]
    have hfols : s'.followers = s.followers := by
      rw [hf2, hs]
    have hcfs : s'.closeFriends = s.closeFriends ++
        ((toInsertCloseFriendIds o ids s).filter
          (fun i => !(cfExists s o i))).map (fun i => (⟨o, i⟩ : CloseFriendEdge)) := by
      rw [hc2, hs]
    refine ⟨?_, ?_, ?_⟩ <;> intro v hv <;> rw [husers] at hv <;>
      obtain ⟨u, hu, rfl⟩ := List.mem_map.1 hv
    · have hbase := h1 u hu
      unfold countFollowingOf at hbase ⊢
      rw [hfols]
      by_cases huo : u.uid = o <;> simp [huo, hbase]
    · have hbase := h2 u hu
      unfold countFollowersOf at hbase ⊢
      rw [hfols]
      by_cases huo : u.uid = o <;> simp [huo, hbase]
    · have hbase := hcf u hu
      unfold countCloseFriendsOf at hbase ⊢
      rw [hcfs]
      by_cases huo : u.uid = o
      · subst huo
        simp only [beq_self_eq_true, if_true, List.countP_append, List.countP_map]
        have hconst : ((toInsertCloseFriendIds u.uid ids s).filter
            (fun i => !(cfExists s u.uid i))).countP
            ((fun e : CloseFriendEdge => e.ownerId == u.uid) ∘
              (fun i => (⟨u.uid, i⟩ : CloseFriendEdge)))
            = ((toInsertCloseFriendIds u.uid ids s).filter
              (fun i => !(cfExists s u.uid i))).length := by
          rw [List.countP_eq_length]
          intro j _
          simp [Function.comp]
        rw [hconst]
        rw [hbase, ← hn]
        push_cast
        ring
      · have hne : (u.uid == o) = false := by
          rw [beq_eq_false_iff_ne]
          exact huo
        simp only [hne, Bool.false_eq_true, if_false, List.countP_append, List.countP_map]
        have hconst0 : ((toInsertCloseFriendIds o ids s).filter
            (fun i => !(cfExists s o i))).countP
            ((fun e : CloseFriendEdge => e.ownerId == u.uid) ∘
              (fun i => (⟨o, i⟩ : CloseFriendEdge)))
            = 0 := by
          rw [List.countP_eq_zero]
          intro j _
          simp only [Function.comp, beq_iff_eq]
          exact fun hcon => huo hcon.symm
        rw [hconst0]
        rw [hbase]
        simp

/-- A committed bulk close-friend remove keeps the counters consistent. -/
theorem removeCF_countersOk (o : Nat) (ids : List Nat) (s s' : DB) (removed : Nat)
    (h : CountersOk s) (hc : removeManyFromCloseFriends o ids s = .ok (removed, s')) :
    CountersOk s' := by
  obtain ⟨h1, h2, hcf⟩ := h
  unfold removeManyFromCloseFriends at hc
  split at hc
  · cases hc
  split at hc
  · cases hc
    exact ⟨h1, h2, hcf⟩
  simp only [cfDeleteMany] at hc
  split at hc
  · cases hc
  rename_i s2 h2'
  cases hc
  split at h2'
  case isFalse hzero =>
    injection h2' with h2'
    subst h2'
    have h0 : s.closeFriends.countP (fun e =>
        e.ownerId == o && (uniqueCloseFriendIds o ids).contains e.friendId)
        = 0 := by
      omega
    refine countersOk_congr s _ rfl rfl ?_ ⟨h1, h2, hcf⟩
    exact filter_not_of_countP_zero _ _ h0
  case isTrue hpos =>
    obtain ⟨hu2, hf2, _, _, hc2, _⟩ := userUpdate_ok _ _ _ _ h2'
    refine ⟨?_, ?_, ?_⟩ <;> intro v hv <;> rw [hu2] at hv <;>
      obtain ⟨u, hu, rfl⟩ := List.mem_map.1 hv
    · have hbase := h1 u hu
      unfold countFollowingOf at hbase ⊢
      rw [hf2]
      by_cases huo : u.uid = o <;> simp [huo, hbase]
    · have hbase := h2 u hu
      unfold countFollowersOf at hbase ⊢
      rw [hf2]
      by_cases huo : u.uid = o <;> simp [huo, hbase]
    · have hbase := hcf u hu
      unfold countCloseFriendsOf at hbase ⊢
      rw [hc2]
      simp only [List.countP_filter]
      by_cases huo : u.uid = o
      · subst huo
        have hsum := countP_split (fun e : CloseFriendEdge => e.ownerId == u.uid)
          (fun e => e.ownerId == u.uid &&
            (uniqueCloseFriendIds u.uid ids).contains e.friendId) s.closeFriends
        have heqp : s.closeFriends.countP (fun e => e.ownerId == u.uid &&
              (e.ownerId == u.uid &&
                (uniqueCloseFriendIds u.uid ids).contains e.friendId))
            = s.closeFriends.countP (fun e => e.ownerId == u.uid &&
                (uniqueCloseFriendIds u.uid ids).contains e.friendId) := by
          apply List.countP_congr
          intro e he
          cases hfe : (e.ownerId == u.uid) <;> simp [hfe]
        rw [heqp] at hsum
        simp only [beq_self_eq_true, if_true]
        rw [hbase]
        have hrest : s.closeFriends.countP (fun e => e.ownerId == u.uid &&
              !(e.ownerId == u.uid &&
                (uniqueCloseFriendIds u.uid ids).contains e.friendId))
            = s.closeFriends.countP (fun e => e.ownerId == u.uid)
              - s.closeFriends.countP (fun e => e.ownerId == u.uid &&
                  (uniqueCloseFriendIds u.uid ids).contains e.friendId) := by
          omega
        rw [hrest]
        omega
      · have hne : (u.uid == o) = false := by
          rw [beq_eq_false_iff_ne]
          exact huo
        simp only [hne, Bool.false_eq_true, if_false]
        rw [hbase]
        congr 1
        apply List.countP_congr
        intro e he
        cases hfe : (e.ownerId == u.uid)
        · simp [hfe]
        · have : (e.ownerId == o) = false := by
            rw [beq_eq_false_iff_ne]
            intro hcon
            exact huo (by rw [← (beq_iff_eq.1 hfe), hcon])
          simp [hfe, this]


/-- A committed block transaction keeps the tracked counters consistent,
provided no close-friend edge existed between the pair (the transaction
deletes such edges without decrementing `closeFriendsCount`). -/
theorem blockTx_countersOk (a b : Nat) (s s' : DB)
    (h : CountersOk s)
    (hcf0 : s.closeFriends.countP (fun e =>
      (e.ownerId == a && e.friendId == b) || (e.ownerId == b && e.friendId == a)) = 0)
    (hc : blockTx a b s = .ok s') : CountersOk s' := by
  unfold blockTx at hc
  split at hc
  · cases hc
  rename_i s1 heq1
  unfold blockCreate at heq1
  split at heq1
  · cases heq1
  injection heq1 with heq1
  subst heq1
  simp only [followerDeleteMany] at hc
  split at hc
  · cases hc
  rename_i s3 h3
  split at hc
  · cases hc
  rename_i s5 h5
  split at hc
  · cases hc
  rename_i s6 h6
  cases hc
  have hok1 : CountersOk { s with blocks := s.blocks ++ [⟨a, b⟩] } :=
    countersOk_congr s _ rfl rfl rfl h
  have hok3 : CountersOk s3 := blockDecStep_countersOk a b _ s3 hok1 h3
  have hok5 : CountersOk s5 := blockDecStep_countersOk b a s3 s5 hok3 h5
  have hok6 : CountersOk s6 := by
    obtain ⟨hu6, hf6, _, _, hc6, _⟩ := userUpdate_ok _ _ _ _ h6
    refine countersOk_map_untracked s5 s6 _ hu6 ?_ hf6 hc6 hok5
    intro u
    by_cases hua : u.uid = a <;> simp [hua]
  have hcf3 : s3.closeFriends = s.closeFriends :=
    (blockDecStep_fields _ _ _ _ _ h3).2.2.1
  have hcf5 : s5.closeFriends = s3.closeFriends :=
    (blockDecStep_fields _ _ _ _ _ h5).2.2.1
  have hcf6 : s6.closeFriends = s.closeFriends := by
    obtain ⟨_, _, _, _, hc6, _⟩ := userUpdate_ok _ _ _ _ h6
    rw [hc6, hcf5, hcf3]
  have hok7 : CountersOk (requestDeleteMany s6 (fun q =>
      (q.requesterId == a && q.targetId == b) ||
      (q.requesterId == b && q.targetId == a))) :=
    countersOk_congr s6 _ rfl rfl rfl hok6
  have hcffinal : s6.closeFriends.filter (fun e =>
      !((e.ownerId == a && e.friendId == b) || (e.ownerId == b && e.friendId == a)))
      = s6.closeFriends := by
    apply filter_not_of_countP_zero
    rw [hcf6]
    exact hcf0
  exact countersOk_congr
    (requestDeleteMany s6 (fun q =>
      (q.requesterId == a && q.targetId == b) || (q.requesterId == b && q.targetId == a)))
    _ rfl rfl hcffinal hok7

/-- A committed block endpoint call keeps the tracked counters consistent
when no close-friend edge existed between the pair. -/
theorem block_countersOk (a b : Nat) (s s' : DB) (item : Option BlockEdge)
    (h : CountersOk s)
    (hcf0 : s.closeFriends.countP (fun e =>
      (e.ownerId == a && e.friendId == b) || (e.ownerId == b && e.friendId == a)) = 0)
    (hc : blockAddEndpoint a b s = .ok (item, s')) : CountersOk s' := by
  unfold blockAddEndpoint at hc
  split at hc
  · cases hc
  unfold blockUser at hc
  split at hc
  · cases hc
  split at hc
  · rename_i s1 heq
    cases hc
    exact blockTx_countersOk a b s s' h hcf0 heq
  · cases hc
    exact h
  · cases hc

/-- Deleting the (unique) follow edge `a → b` and applying the two
guarded decrements keeps the counters consistent. -/
theorem unfollow_countersOk (a b : Nat) (s s' : DB)
    (hnd : FollowPairsNodup s) (h : CountersOk s)
    (hc : unfollow a b s = .ok s') : CountersOk s' := by
  unfold unfollow at hc
  split at hc
  · cases hc
  simp only [followerDeleteMany] at hc
  split at hc
  · cases hc
  rename_i hdel
  cases hc
  obtain ⟨h1, h2, hcf⟩ := h
  have hn1 : s.followers.countP (fun e => e.followerId == a && e.followingId == b) = 1 := by
    have hle := countP_pair_le_one s.followers hnd a b
    have hge : s.followers.countP (fun e => e.followerId == a && e.followingId == b) ≠ 0 := by
      intro h0
      exact hdel (by rw [h0]; rfl)
    omega
  have hpt : ∀ v : UserRec,
      ((fun w : UserRec =>
          if w.uid == a && decide (0 < w.followingCount) then
            { w with followingCount := w.followingCount - 1 } else w)
        (if v.uid == b && decide (0 < v.followersCount) then
          { v with followersCount := v.followersCount - 1 } else v))
      = { v with
          followersCount :=
            if v.uid == b && decide (0 < v.followersCount) then v.followersCount - 1
            else v.followersCount,
          followingCount :=
            if v.uid == a && decide (0 < v.followingCount) then v.followingCount - 1
            else v.followingCount } := by
    intro v
    by_cases hvb : (v.uid == b && decide (0 < v.followersCount)) = true <;>
      by_cases hva : (v.uid == a && decide (0 < v.followingCount)) = true <;>
      simp [hvb, hva]
  have husers :
      (userUpdateManyIf
        (userUpdateManyIf
          { s with followers := s.followers.filter (fun e => !(e.followerId == a && e.followingId == b)) }
          b (fun u => decide (0 < u.followersCount))
          (fun u => { u with followersCount := u.followersCount - 1 }))
        a (fun u => decide (0 < u.followingCount))
        (fun u => { u with followingCount := u.followingCount - 1 })).users
      = s.users.map (fun v =>
        { v with
          followersCount :=
            if v.uid == b && decide (0 < v.followersCount) then v.followersCount - 1
            else v.followersCount,
          followingCount :=
            if v.uid == a && decide (0 < v.followingCount) then v.followingCount - 1
            else v.followingCount }) := by
    unfold userUpdateManyIf
    simp only [List.map_map]
    exact List.map_congr_left (fun v _ => hpt v)
  refine ⟨?_, ?_, ?_⟩ <;> intro v hv <;> rw [husers] at hv <;>
    obtain ⟨u, hu, rfl⟩ := List.mem_map.1 hv
  · have hbase := h1 u hu
    unfold countFollowingOf at hbase ⊢
    unfold userUpdateManyIf
    simp only [List.countP_filter]
    by_cases hua : u.uid = a
    · subst hua
      have hsum := countP_split (fun e : FollowEdge => e.followerId == u.uid)
        (fun e => e.followerId == u.uid && e.followingId == b) s.followers
      have heqp : s.followers.countP
          (fun e => e.followerId == u.uid && (e.followerId == u.uid && e.followingId == b))
          = s.followers.countP (fun e => e.followerId == u.uid && e.followingId == b) := by
        apply List.countP_congr
        intro e he
        cases hfe : (e.followerId == u.uid) <;> simp [hfe]
      have hcondpos : 0 < u.followingCount := by
        rw [hbase]
        have : 0 < s.followers.countP (fun e => e.followerId == u.uid && e.followingId == b) := by
          omega
        have hmono := countP_split (fun e : FollowEdge => e.followerId == u.uid)
          (fun e => e.followingId == b) s.followers
        have : 0 < s.followers.countP (fun e => e.followerId == u.uid) := by
          have heqpair : s.followers.countP (fun e => e.followerId == u.uid && e.followingId == b)
              ≤ s.followers.countP (fun e => e.followerId == u.uid) := by
            rw [hmono]
            omega
          omega
        exact_mod_cast this
      simp only [beq_self_eq_true, Bool.true_and, decide_eq_true_eq, if_pos hcondpos]
      rw [hbase]
      rw [heqp] at hsum
      have : s.followers.countP
          (fun e => e.followerId == u.uid && !(e.followerId == u.uid && e.followingId == b))
          = s.followers.countP (fun e => e.followerId == u.uid) - 1 := by
        omega
      rw [this]
      have hpos : 1 ≤ s.followers.countP (fun e => e.followerId == u.uid) := by
        omega
      push_cast [hpos]
      ring
    · have hne : (u.uid == a) = false := by
        rw [beq_eq_false_iff_ne]
        exact hua
      simp only [hne, Bool.false_and, Bool.false_eq_true, if_false]
      rw [hbase]
      congr 1
      apply List.countP_congr
      intro e he
      cases hfe : (e.followerId == u.uid)
      · simp [hfe]
      · have : (e.followerId == a) = false := by
          rw [beq_eq_false_iff_ne]
          intro hcon
          exact hua (by rw [← (beq_iff_eq.1 hfe), hcon])
        simp [hfe, this]
  · have hbase := h2 u hu
    unfold countFollowersOf at hbase ⊢
    unfold userUpdateManyIf
    simp only [List.countP_filter]
    by_cases hub : u.uid = b
    · subst hub
      have hsum := countP_split (fun e : FollowEdge => e.followingId == u.uid)
        (fun e => e.followerId == a && e.followingId == u.uid) s.followers
      have heqp : s.followers.countP
          (fun e => e.followingId == u.uid && (e.followerId == a && e.followingId == u.uid))
          = s.followers.countP (fun e => e.followerId == a && e.followingId == u.uid) := by
        apply List.countP_congr
        intro e he
        cases hfe : (e.followingId == u.uid) <;> cases hfa : (e.followerId == a) <;>
          simp [hfe, hfa]
      have hcondpos : 0 < u.followersCount := by
        rw [hbase]
        have hmono := countP_split (fun e : FollowEdge => e.followingId == u.uid)
          (fun e => e.followerId == a) s.followers
        have heqp2 : s.followers.countP
            (fun e => e.followingId == u.uid && e.followerId == a)
            = s.followers.countP (fun e => e.followerId == a && e.followingId == u.uid) := by
          apply List.countP_congr
          intro e he
          cases hfe : (e.followingId == u.uid) <;> cases hfa : (e.followerId == a) <;>
            simp [hfe, hfa]
        have : 0 < s.followers.countP (fun e => e.followingId == u.uid) := by
          rw [hmono, heqp2]
          omega
        exact_mod_cast this
      simp only [beq_self_eq_true, Bool.true_and, decide_eq_true_eq, if_pos hcondpos]
      rw [hbase]
      rw [heqp] at hsum
      have : s.followers.countP
          (fun e => e.followingId == u.uid && !(e.followerId == a && e.followingId == u.uid))
          = s.followers.countP (fun e => e.followingId == u.uid) - 1 := by
        omega
      rw [this]
      have hpos : 1 ≤ s.followers.countP (fun e => e.followingId == u.uid) := by
        omega
      push_cast [hpos]
      ring
    · have hne : (u.uid == b) = false := by
        rw [beq_eq_false_iff_ne]
        exact hub
      simp only [hne, Bool.false_and, Bool.false_eq_true, if_false]
      rw [hbase]
      congr 1
      apply List.countP_congr
      intro e he
      cases hfe : (e.followingId == u.uid)
      · simp [hfe]
      · have : (e.followingId == b) = false := by
          rw [beq_eq_false_iff_ne]
          intro hcon
          exact hub (by rw [← (beq_iff_eq.1 hfe), hcon])
        simp [hfe, this]
  · have hbase := hcf u hu
    unfold countCloseFriendsOf at hbase ⊢
    unfold userUpdateManyIf
    exact hbase

/-- A committed `follow` keeps the counters consistent. -/
theorem follow_countersOk (a b : Nat) (s s' : DB) (r : FollowOutcome)
    (h : CountersOk s) (hc : follow a b s = .ok (r, s')) : CountersOk s' := by
  unfold follow followFrom at hc
  split at hc
  · cases hc
  split at hc
  · cases hc
  rename_i target htarget
  split at hc
  · cases hc
    exact h
  rename_i hnotyet
  split at hc
  · cases hc
    obtain ⟨h1, h2, _, h4⟩ := requestUpsertPending_fields s a b
    exact countersOk_congr s _ h1 h2 h4 h
  have hcr : followerCreate s a b =
      .ok { s with followers := s.followers ++ [⟨s.nextId, a, b⟩], nextId := s.nextId + 1 } := by
    unfold followerCreate
    rw [if_neg hnotyet]
  split at hc
  · rename_i e heq
    rw [hcr] at heq
    cases heq
  rename_i s2 heq2
  rw [hcr] at heq2
  injection heq2 with heq2
  subst heq2
  split at hc
  · cases hc
  rename_i s3 h3
  split at hc
  · cases hc
  rename_i s4 h4
  cases hc
  have hok4 : CountersOk s4 := countersOk_edge_insert s s3 s4 a b h3 h4 h
  obtain ⟨r1, r2, _, r4, _⟩ := requestDeleteMany_fields s4
    (fun q => q.requesterId == a && q.targetId == b)
  exact countersOk_congr s4 _ r1 r2 r4 hok4

/-- A committed `acceptFollowRequest` keeps the counters consistent,
provided the accepted request's follow edge did not already exist. -/
theorem accept_countersOk (t r : Nat) (s s' : DB)
    (h : CountersOk s) (hne : followerExists s r t = false)
    (hc : acceptFollowRequest t r s = .ok s') : CountersOk s' := by
  unfold acceptFollowRequest at hc
  split at hc
  · cases hc
  rename_i q hq
  split at hc
  case isFalse => cases hc
  have hup : followerUpsertNoUpdate s r t =
      { s with followers := s.followers ++ [⟨s.nextId, r, t⟩], nextId := s.nextId + 1 } := by
    unfold followerUpsertNoUpdate
    rw [hne]
    simp
  rw [hup] at hc
  split at hc
  · cases hc
  rename_i s2 h2
  split at hc
  · cases hc
  rename_i s3 h3
  have hok3 : CountersOk s3 := countersOk_edge_insert s s2 s3 r t h2 h3 h
  obtain ⟨u1, u2, _, u4, _, _⟩ := requestUpdateStatus_ok s3 r t .accepted s' hc
  exact countersOk_congr s3 s' u1 u2 u4 hok3


/-- A committed `rejectFollowRequest` changes only a request's status. -/
theorem reject_countersOk (t r : Nat) (s s' : DB)
    (h : CountersOk s) (hc : rejectFollowRequest t r s = .ok s') : CountersOk s' := by
  unfold rejectFollowRequest at hc
  split at hc
  · cases hc
  rename_i q hq
  split at hc
  · obtain ⟨u1, u2, _, u4, _, _⟩ := requestUpdateStatus_ok s r t .rejected s' hc
    exact countersOk_congr s s' u1 u2 u4 h
  · cases hc

/-- A committed `cancelFollowRequest` changes only the request rows. -/
theorem cancel_countersOk (r t : Nat) (s s' : DB)
    (h : CountersOk s) (hc : cancelFollowRequest r t s = .ok s') : CountersOk s' := by
  unfold cancelFollowRequest at hc
  cases hc
  exact countersOk_congr s _ rfl rfl rfl h

/-- A committed `unblockUser` changes only the block rows and
`blockedCount`. -/
theorem unblock_countersOk (a b : Nat) (s s' : DB) (removed : Bool)
    (h : CountersOk s) (hc : unblockUser a b s = .ok (removed, s')) : CountersOk s' := by
  unfold unblockUser at hc
  split at hc
  · cases hc
    exact h
  split at hc
  · cases hc
  rename_i s2 h2
  cases hc
  obtain ⟨hu2, hf2, _, _, hc2, _⟩ := userUpdate_ok _ _ _ _ h2
  refine countersOk_map_untracked _ _ _ hu2 ?_ hf2 hc2 (countersOk_congr s _ rfl rfl rfl h)
  intro u
  by_cases hua : u.uid = a <;> simp [hua]

theorem findUser_uid (s : DB) (z : Nat) (w : UserRec)
    (h : findUser s z = some w) : w.uid = z := by
  unfold findUser at h
  have := List.find?_some h
  exact beq_iff_eq.1 this

theorem findUser_usersEq (s s' : DB) (h : s'.users = s.users) (z : Nat) :
    findUser s' z = findUser s z := by
  unfold findUser
  rw [h]

theorem userExists_of_findUser (s : DB) (z : Nat) (w : UserRec)
    (h : findUser s z = some w) : userExists s z = true := by
  unfold userExists
  rw [h]
  rfl


theorem findUser_mapUsers (s : DB) (g : UserRec → UserRec)
    (hg : ∀ u, (g u).uid = u.uid) (z : Nat) :
    findUser (mapUsers s g) z = (findUser s z).map g :=
  findUser_map_users s (mapUsers s g) g rfl hg z

theorem userUpdate_eq_of_exists (s : DB) (id : Nat) (f : UserRec → UserRec)
    (hex : userExists s id = true) :
    userUpdate s id f = .ok (mapUsers s (fun u => if u.uid == id then f u else u)) := by
  unfold userUpdate
  rw [hex]
  rfl

/-- Characterisation of one committed `blockDecStep x y n`: the edge
tables are untouched, `followingCount(x)` and `followersCount(y)` drop
by `n` (also for `n = 0`, where no update runs), and every other user
row is unchanged. -/
theorem blockDecStep_char (x y n : Nat) (sd : DB) (uX uY : UserRec)
    (hxy : x ≠ y)
    (hX : findUser sd x = some uX) (hY : findUser sd y = some uY) :
    ∃ t, blockDecStep x y n sd = .ok t ∧
      t.followers = sd.followers ∧ t.followRequests = sd.followRequests ∧
      t.blocks = sd.blocks ∧ t.closeFriends = sd.closeFriends ∧ t.nextId = sd.nextId ∧
      findUser t x = some { uX with followingCount := uX.followingCount - (n : Int) } ∧
      findUser t y = some { uY with followersCount := uY.followersCount - (n : Int) } ∧
      (∀ z : Nat, z ≠ x → z ≠ y → findUser t z = findUser sd z) := by
  by_cases hn : 0 < n
  · have huidX : uX.uid = x := findUser_uid sd x uX hX
    have huidY : uY.uid = y := findUser_uid sd y uY hY
    have hg1 : ∀ u : UserRec, ((fun u : UserRec => if u.uid == x then
        { u with followingCount := u.followingCount - (n : Int) } else u) u).uid = u.uid := by
      intro u
      by_cases hux : u.uid = x <;> simp [hux]
    have hg2 : ∀ u : UserRec, ((fun u : UserRec => if u.uid == y then
        { u with followersCount := u.followersCount - (n : Int) } else u) u).uid = u.uid := by
      intro u
      by_cases huy : u.uid = y <;> simp [huy]
    have hex : userExists sd x = true := userExists_of_findUser sd x uX hX
    have ht1 := userUpdate_eq_of_exists sd x
      (fun u => { u with followingCount := u.followingCount - (n : Int) }) hex
    have hfind1 := findUser_mapUsers sd (fun u => if u.uid == x then
      { u with followingCount := u.followingCount - (n : Int) } else u) hg1
    have hex2 : userExists (mapUsers sd (fun u => if u.uid == x then
        { u with followingCount := u.followingCount - (n : Int) } else u)) y = true := by
      unfold userExists
      rw [hfind1 y, hY]
      rfl
    have ht2 := userUpdate_eq_of_exists (mapUsers sd (fun u => if u.uid == x then
      { u with followingCount := u.followingCount - (n : Int) } else u)) y
      (fun u => { u with followersCount := u.followersCount - (n : Int) }) hex2
    have hfind2 := findUser_mapUsers (mapUsers sd (fun u => if u.uid == x then
      { u with followingCount := u.followingCount - (n : Int) } else u))
      (fun u => if u.uid == y then
        { u with followersCount := u.followersCount - (n : Int) } else u) hg2
    refine ⟨mapUsers (mapUsers sd (fun u => if u.uid == x then
        { u with followingCount := u.followingCount - (n : Int) } else u))
        (fun u => if u.uid == y then
          { u with followersCount := u.followersCount - (n : Int) } else u),
      ?_, rfl, rfl, rfl, rfl, rfl, ?_, ?_, ?_⟩
    · unfold blockDecStep
      rw [if_pos hn, ht1]
      exact ht2
    · rw [hfind2 x, hfind1 x, hX]
      have hxyne : (x == y) = false := by
        rw [beq_eq_false_iff_ne]
        exact hxy
      simp [Option.map, huidX, hxyne]
    · rw [hfind2 y, hfind1 y, hY]
      have hyxne : (y == x) = false := by
        rw [beq_eq_false_iff_ne]
        exact fun hh => hxy hh.symm
      simp [Option.map, huidY, hyxne]
    · intro z hzx hzy
      rw [hfind2 z, hfind1 z]
      cases hz : findUser sd z with
      | none => rfl
      | some w =>
        have huidw : w.uid = z := findUser_uid sd z w hz
        have h1 : (w.uid == x) = false := by
          rw [beq_eq_false_iff_ne, huidw]
          exact hzx
        have h2 : (w.uid == y) = false := by
          rw [beq_eq_false_iff_ne, huidw]
          exact hzy
        simp [Option.map, h1, h2]
  · refine ⟨sd, ?_, rfl, rfl, rfl, rfl, rfl, ?_, ?_, fun z _ _ => rfl⟩
    · unfold blockDecStep
      rw [if_neg hn]
    · have hn0 : n = 0 := by omega
      rw [hX, hn0]
      simp
    · have hn0 : n = 0 := by omega
      rw [hY, hn0]
      simp

/-- C3: For distinct existing users A and B, `blockUser(A,B)` in one
transaction creates the BlockEdge (and on a unique-constraint collision
returns the existing row and an unchanged state, not an error), deletes
the FollowEdges A→B and B→A decrementing the matching
`followingCount`/`followersCount` for each edge actually removed,
increments `blockedCount(A)` by exactly 1, and deletes every
FollowRequest and every CloseFriendEdge between the pair in either
direction. -/
theorem blockUser_spec (a b : Nat) (s : DB) (uA uB : UserRec)
    (hab : a ≠ b)
    (hA : findUser s a = some uA) (hB : findUser s b = some uB) :
    (blockExists s a b = true →
      blockUser a b s = .ok
        (s.blocks.find? (fun e => e.blockerId == a && e.blockedId == b), s)) ∧
    (blockExists s a b = false →
      ∃ s', blockUser a b s = .ok (some ⟨a, b⟩, s') ∧
        s'.blocks = s.blocks ++ [⟨a, b⟩] ∧
        s'.followers = s.followers.filter (fun e =>
          !(e.followerId == a && e.followingId == b) &&
          !(e.followerId == b && e.followingId == a)) ∧
        s'.followRequests = s.followRequests.filter (fun q =>
          !((q.requesterId == a && q.targetId == b) ||
            (q.requesterId == b && q.targetId == a))) ∧
        s'.closeFriends = s.closeFriends.filter (fun e =>
          !((e.ownerId == a && e.friendId == b) ||
            (e.ownerId == b && e.friendId == a))) ∧
        findUser s' a = some { uA with
          followingCount := uA.followingCount -
            (s.followers.countP (fun e => e.followerId == a && e.followingId == b) : Int),
          followersCount := uA.followersCount -
            (s.followers.countP (fun e => e.followerId == b && e.followingId == a) : Int),
          blockedCount := uA.blockedCount + 1 } ∧
        findUser s' b = some { uB with
          followingCount := uB.followingCount -
            (s.followers.countP (fun e => e.followerId == b && e.followingId == a) : Int),
          followersCount := uB.followersCount -
            (s.followers.countP (fun e => e.followerId == a && e.followingId == b) : Int) }) := by
  have huexb : userExists s b = true := userExists_of_findUser s b uB hB
  have huidA : uA.uid = a := findUser_uid s a uA hA
  have huidB : uB.uid = b := findUser_uid s b uB hB
  constructor
  · intro hyes
    have htx : blockTx a b s = .error .uniqueViolation := by
      unfold blockTx blockCreate
      rw [hyes]
      rfl
    unfold blockUser
    rw [huexb, htx]
    rfl
  · intro hnb
    have hbc : blockCreate s a b = .ok { s with blocks := s.blocks ++ [⟨a, b⟩] } := by
      unfold blockCreate
      rw [hnb]
      rfl
    have hA1 : findUser { s with
        blocks := s.blocks ++ [⟨a, b⟩],
        followers := s.followers.filter (fun e =>
          !(e.followerId == a && e.followingId == b)) } a = some uA :=
      (findUser_usersEq s _ rfl a).trans hA
    have hB1 : findUser { s with
        blocks := s.blocks ++ [⟨a, b⟩],
        followers := s.followers.filter (fun e =>
          !(e.followerId == a && e.followingId == b)) } b = some uB :=
      (findUser_usersEq s _ rfl b).trans hB
    obtain ⟨s3, hstep1, hf3, hq3, hbk3, hcf3, hn3, hfa3, hfb3, _⟩ :=
      blockDecStep_char a b
        (s.followers.countP (fun e => e.followerId == a && e.followingId == b))
        { s with
          blocks := s.blocks ++ [⟨a, b⟩],
          followers := s.followers.filter (fun e =>
            !(e.followerId == a && e.followingId == b)) } uA uB hab hA1 hB1
    have hB2 : findUser { s3 with followers := s3.followers.filter (fun e =>
        !(e.followerId == b && e.followingId == a)) } b
        = some { uB with followersCount := uB.followersCount -
            (s.followers.countP (fun e => e.followerId == a && e.followingId == b) : Int) } :=
      (findUser_usersEq s3 _ rfl b).trans hfb3
    have hA2 : findUser { s3 with followers := s3.followers.filter (fun e =>
        !(e.followerId == b && e.followingId == a)) } a
        = some { uA with followingCount := uA.followingCount -
            (s.followers.countP (fun e => e.followerId == a && e.followingId == b) : Int) } :=
      (findUser_usersEq s3 _ rfl a).trans hfa3
    obtain ⟨s5, hstep2, hf5, hq5, hbk5, hcf5, hn5, hfb5, hfa5, _⟩ :=
      blockDecStep_char b a
        (s3.followers.countP (fun e => e.followerId == b && e.followingId == a))
        { s3 with followers := s3.followers.filter (fun e =>
          !(e.followerId == b && e.followingId == a)) }
        { uB with followersCount := uB.followersCount -
            (s.followers.countP (fun e => e.followerId == a && e.followingId == b) : Int) }
        { uA with followingCount := uA.followingCount -
            (s.followers.countP (fun e => e.followerId == a && e.followingId == b) : Int) }
        (fun hh => hab hh.symm) hB2 hA2
    have hcnt2 : s3.followers.countP (fun e => e.followerId == b && e.followingId == a)
        = s.followers.countP (fun e => e.followerId == b && e.followingId == a) := by
      rw [hf3]
      rw [List.countP_filter]
      apply List.countP_congr
      intro e he
      cases hfb : (e.followerId == b)
      · simp [hfb]
      · cases hga : (e.followingId == a)
        · simp [hfb, hga]
        · have h1 : (e.followerId == a) = false := by
            rw [beq_eq_false_iff_ne]
            intro hcon
            exact hab (by rw [← hcon, beq_iff_eq.1 hfb])
          simp [hfb, hga, h1]
    have hexa5 : userExists s5 a = true := userExists_of_findUser s5 a _ hfa5
    have ht6 := userUpdate_eq_of_exists s5 a
      (fun u => { u with blockedCount := u.blockedCount + 1 }) hexa5
    have hg6uid : ∀ u : UserRec, ((fun u : UserRec => if u.uid == a then
        { u with blockedCount := u.blockedCount + 1 } else u) u).uid = u.uid := by
      intro u
      by_cases hua : u.uid = a <;> simp [hua]
    have hfa6 : findUser (mapUsers s5 (fun u => if u.uid == a then
        { u with blockedCount := u.blockedCount + 1 } else u)) a
        = some { uA with
            followingCount := uA.followingCount -
              (s.followers.countP (fun e => e.followerId == a && e.followingId == b) : Int),
            followersCount := uA.followersCount -
              (s3.followers.countP (fun e => e.followerId == b && e.followingId == a) : Int),
            blockedCount := uA.blockedCount + 1 } := by
      rw [findUser_mapUsers s5 _ hg6uid a, hfa5]
      simp [Option.map, huidA]
    have hfb6 : findUser (mapUsers s5 (fun u => if u.uid == a then
        { u with blockedCount := u.blockedCount + 1 } else u)) b
        = some { uB with
            followingCount := uB.followingCount -
              (s3.followers.countP (fun e => e.followerId == b && e.followingId == a) : Int),
            followersCount := uB.followersCount -
              (s.followers.countP (fun e => e.followerId == a && e.followingId == b) : Int) } := by
      rw [findUser_mapUsers s5 _ hg6uid b, hfb5]
      have hbne : (uB.uid == a) = false := by
        rw [beq_eq_false_iff_ne, huidB]
        exact fun hh => hab hh.symm
      simp [Option.map, hbne]
    have htx : blockTx a b s = .ok (cfDeleteMany
        (requestDeleteMany (mapUsers s5 (fun u => if u.uid == a then
          { u with blockedCount := u.blockedCount + 1 } else u)) (fun q =>
            (q.requesterId == a && q.targetId == b) ||
            (q.requesterId == b && q.targetId == a)))
        (fun e => (e.ownerId == a && e.friendId == b) ||
          (e.ownerId == b && e.friendId == a))).2 := by
      unfold blockTx
      rw [hbc]
      simp only [followerDeleteMany]
      rw [hstep1]
      simp only []
      rw [hstep2]
      simp only []
      rw [ht6]
    have hbkeq : s5.blocks = s.blocks ++ [⟨a, b⟩] := hbk5.trans hbk3
    have hreq : s5.followRequests = s.followRequests := hq5.trans hq3
    have hcfeq : s5.closeFriends = s.closeFriends := hcf5.trans hcf3
    have hf5e : s5.followers = s3.followers.filter (fun e =>
        !(e.followerId == b && e.followingId == a)) := hf5
    have hf3e : s3.followers = s.followers.filter (fun e =>
        !(e.followerId == a && e.followingId == b)) := hf3
    refine ⟨(cfDeleteMany
        (requestDeleteMany (mapUsers s5 (fun u => if u.uid == a then
          { u with blockedCount := u.blockedCount + 1 } else u)) (fun q =>
            (q.requesterId == a && q.targetId == b) ||
            (q.requesterId == b && q.targetId == a)))
        (fun e => (e.ownerId == a && e.friendId == b) ||
          (e.ownerId == b && e.friendId == a))).2, ?_, ?_, ?_, ?_, ?_, ?_, ?_⟩
    · unfold blockUser
      rw [huexb, htx]
      rfl
    · show s5.blocks = s.blocks ++ [⟨a, b⟩]
      exact hbkeq
    · show s5.followers = _
      rw [hf5e, hf3e, List.filter_filter]
      apply List.filter_congr
      intro e he
      exact Bool.and_comm _ _
    · show s5.followRequests.filter _ = _
      rw [hreq]
    · show s5.closeFriends.filter _ = _
      rw [hcfeq]
    · show findUser (mapUsers s5 (fun u => if u.uid == a then
        { u with blockedCount := u.blockedCount + 1 } else u)) a = _
      rw [hfa6, hcnt2]
    · show findUser (mapUsers s5 (fun u => if u.uid == a then
        { u with blockedCount := u.blockedCount + 1 } else u)) b = _
      rw [hfb6, hcnt2]

theorem findUser_userUpdateManyIf (s : DB) (id : Nat) (cond : UserRec → Bool)
    (f : UserRec → UserRec) (hf : ∀ u, (f u).uid = u.uid) (z : Nat) :
    findUser (userUpdateManyIf s id cond f) z
    = (findUser s z).map (fun u => if u.uid == id && cond u then f u else u) := by
  apply findUser_map_users
  · rfl
  · intro u
    by_cases h1 : (u.uid == id && cond u) = true <;> simp [h1, hf]

theorem findRequest_pred (s : DB) (r t : Nat) (q : FollowRequestRow)
    (h : findRequest s r t = some q) :
    (q.requesterId == r && q.targetId == t) = true := by
  unfold findRequest at h
  have h2 := List.find?_some h
  exact h2

/-- C6: `unfollow(A,B)` deletes the FollowEdge A→B and decrements
`followingCount(A)` and `followersCount(B)` by exactly 1 (each decrement
guarded by the counter being positive, which holds in a
counter-consistent state); when no edge exists — in particular for a
self-unfollow, which the service rejects up front — it fails with
`BadRequestException` (`InvalidOperation`) and, the transaction having
aborted, leaves every edge and counter unchanged. -/
theorem unfollow_spec (a b : Nat) (s : DB) (uA uB : UserRec)
    (hnd : FollowPairsNodup s)
    (hfg : FollowingCountsOk s) (hfr : FollowersCountsOk s)
    (hA : findUser s a = some uA) (hB : findUser s b = some uB) :
    (a = b ∨ followerExists s a b = false → unfollow a b s = .error .badRequest) ∧
    (a ≠ b → followerExists s a b = true →
      ∃ s', unfollow a b s = .ok s' ∧
        s'.followers = s.followers.filter (fun e =>
          !(e.followerId == a && e.followingId == b)) ∧
        s'.followRequests = s.followRequests ∧ s'.blocks = s.blocks ∧
        s'.closeFriends = s.closeFriends ∧
        findUser s' a = some { uA with followingCount := uA.followingCount - 1 } ∧
        findUser s' b = some { uB with followersCount := uB.followersCount - 1 } ∧
        (∀ z, z ≠ a → z ≠ b → findUser s' z = findUser s z)) := by
  have huidA : uA.uid = a := findUser_uid s a uA hA
  have huidB : uB.uid = b := findUser_uid s b uB hB
  have hmemA : uA ∈ s.users := by
    unfold findUser at hA
    exact List.mem_of_find?_eq_some hA
  have hmemB : uB ∈ s.users := by
    unfold findUser at hB
    exact List.mem_of_find?_eq_some hB
  constructor
  · intro hcase
    by_cases hab : a = b
    · unfold unfollow
      rw [beq_iff_eq.2 hab]
      rfl
    · have habne : (a == b) = false := by
        rw [beq_eq_false_iff_ne]
        exact hab
      have hno : followerExists s a b = false := by
        rcases hcase with h | h
        · exact absurd h hab
        · exact h
      have h0 : s.followers.countP (fun e => e.followerId == a && e.followingId == b) = 0 := by
        rw [List.countP_eq_zero]
        intro e he hpe
        have : s.followers.any (fun e => e.followerId == a && e.followingId == b) = true :=
          List.any_eq_true.2 ⟨e, he, hpe⟩
        unfold followerExists at hno
        rw [hno] at this
        cases this
      unfold unfollow
      rw [habne]
      simp only [Bool.false_eq_true, if_false, followerDeleteMany]
      rw [h0]
      rfl
  · intro hab hyes
    have habne : (a == b) = false := by
      rw [beq_eq_false_iff_ne]
      exact hab
    have hpos : 0 < s.followers.countP (fun e => e.followerId == a && e.followingId == b) := by
      unfold followerExists at hyes
      obtain ⟨e, he, hpe⟩ := List.any_eq_true.1 hyes
      exact List.countP_pos.2 ⟨e, he, hpe⟩
    have hn1 : s.followers.countP (fun e => e.followerId == a && e.followingId == b) = 1 := by
      have := countP_pair_le_one s.followers hnd a b
      omega
    have hApos : 0 < uA.followingCount := by
      rw [hfg uA hmemA]
      have hsum := countP_split (fun e : FollowEdge => e.followerId == uA.uid)
        (fun e => e.followingId == b) s.followers
      have heqp : s.followers.countP (fun e => e.followerId == uA.uid && e.followingId == b)
          = s.followers.countP (fun e => e.followerId == a && e.followingId == b) := by
        rw [huidA]
      have : 0 < countFollowingOf s uA.uid := by
        unfold countFollowingOf
        rw [hsum, heqp]
        omega
      exact_mod_cast this
    have hBpos : 0 < uB.followersCount := by
      rw [hfr uB hmemB]
      have hsum := countP_split (fun e : FollowEdge => e.followingId == uB.uid)
        (fun e => e.followerId == a) s.followers
      have heqp : s.followers.countP (fun e => e.followingId == uB.uid && e.followerId == a)
          = s.followers.countP (fun e => e.followerId == a && e.followingId == b) := by
        rw [huidB]
        apply List.countP_congr
        intro e he
        cases h1 : (e.followerId == a) <;> cases h2 : (e.followingId == b) <;> simp [h1, h2]
      have : 0 < countFollowersOf s uB.uid := by
        unfold countFollowersOf
        rw [hsum, heqp]
        omega
      exact_mod_cast this
    have hrun : unfollow a b s = .ok (userUpdateManyIf (userUpdateManyIf
        { s with followers := s.followers.filter (fun e =>
            !(e.followerId == a && e.followingId == b)) }
        b (fun u => decide (0 < u.followersCount))
        (fun u => { u with followersCount := u.followersCount - 1 }))
        a (fun u => decide (0 < u.followingCount))
        (fun u => { u with followingCount := u.followingCount - 1 })) := by
      unfold unfollow
      rw [habne]
      simp only [Bool.false_eq_true, if_false, followerDeleteMany]
      rw [hn1]
      rfl
    have hg1uid : ∀ u : UserRec,
        ((fun u : UserRec => { u with followersCount := u.followersCount - 1 }) u).uid
        = u.uid := fun u => rfl
    have hg2uid : ∀ u : UserRec,
        ((fun u : UserRec => { u with followingCount := u.followingCount - 1 }) u).uid
        = u.uid := fun u => rfl
    have hfind1 := findUser_userUpdateManyIf
      { s with followers := s.followers.filter (fun e =>
          !(e.followerId == a && e.followingId == b)) }
      b (fun u => decide (0 < u.followersCount))
      (fun u => { u with followersCount := u.followersCount - 1 }) hg1uid
    have hfind2 := findUser_userUpdateManyIf (userUpdateManyIf
        { s with followers := s.followers.filter (fun e =>
            !(e.followerId == a && e.followingId == b)) }
        b (fun u => decide (0 < u.followersCount))
        (fun u => { u with followersCount := u.followersCount - 1 }))
      a (fun u => decide (0 < u.followingCount))
      (fun u => { u with followingCount := u.followingCount - 1 }) hg2uid
    refine ⟨_, hrun, rfl, rfl, rfl, rfl, ?_, ?_, ?_⟩
    · rw [hfind2 a, hfind1 a]
      have hA0 : findUser { s with followers := s.followers.filter (fun e =>
          !(e.followerId == a && e.followingId == b)) } a = some uA :=
        (findUser_usersEq s _ rfl a).trans hA
      rw [hA0]
      have hAne : (uA.uid == b) = false := by
        rw [beq_eq_false_iff_ne, huidA]
        exact hab
      simp [Option.map, hAne, huidA, decide_eq_true_eq, hApos, hab]
    · rw [hfind2 b, hfind1 b]
      have hB0 : findUser { s with followers := s.followers.filter (fun e =>
          !(e.followerId == a && e.followingId == b)) } b = some uB :=
        (findUser_usersEq s _ rfl b).trans hB
      rw [hB0]
      have hBne : (uB.uid == a) = false := by
        rw [beq_eq_false_iff_ne, huidB]
        exact fun hh => hab hh.symm
      simp [Option.map, hBne, huidB, decide_eq_true_eq, hBpos, Ne.symm hab]
    · intro z hza hzb
      rw [hfind2 z, hfind1 z]
      have hz0 : findUser { s with followers := s.followers.filter (fun e =>
          !(e.followerId == a && e.followingId == b)) } z = findUser s z :=
        findUser_usersEq s _ rfl z
      rw [hz0]
      cases hz : findUser s z with
      | none => rfl
      | some w =>
        have huidw : w.uid = z := findUser_uid s z w hz
        have h1 : (w.uid == b) = false := by
          rw [beq_eq_false_iff_ne, huidw]
          exact hzb
        have h2 : (w.uid == a) = false := by
          rw [beq_eq_false_iff_ne, huidw]
          exact hza
        simp [Option.map, h1, h2]

/-- C10: when a PENDING request (requester r → target t) and the
FollowEdge r→t both already exist, `acceptFollowRequest(t,r)` commits,
leaves the FollowEdge set unchanged (the upsert is a no-op), but still
increments `followingCount(r)` and `followersCount(t)` by 1 each and
marks the request ACCEPTED. -/
theorem acceptFollowRequest_spec (t r : Nat) (s : DB) (q : FollowRequestRow)
    (uR uT : UserRec)
    (hrt : r ≠ t)
    (hq : findRequest s r t = some q) (hpend : q.status = ReqStatus.pending)
    (hedge : followerExists s r t = true)
    (hR : findUser s r = some uR) (hT : findUser s t = some uT) :
    ∃ s', acceptFollowRequest t r s = .ok s' ∧
      s'.followers = s.followers ∧
      s'.blocks = s.blocks ∧ s'.closeFriends = s.closeFriends ∧
      findUser s' r = some { uR with followingCount := uR.followingCount + 1 } ∧
      findUser s' t = some { uT with followersCount := uT.followersCount + 1 } ∧
      ((findRequest s' r t).map (fun q2 => q2.status)) = some ReqStatus.accepted := by
  have huidR : uR.uid = r := findUser_uid s r uR hR
  have huidT : uT.uid = t := findUser_uid s t uT hT
  have hup : followerUpsertNoUpdate s r t = s := by
    unfold followerUpsertNoUpdate
    rw [hedge]
    rfl
  have hexr : userExists s r = true := userExists_of_findUser s r uR hR
  have ht2 := userUpdate_eq_of_exists s r
    (fun u => { u with followingCount := u.followingCount + 1 }) hexr
  have hg2uid : ∀ u : UserRec, ((fun u : UserRec => if u.uid == r then
      { u with followingCount := u.followingCount + 1 } else u) u).uid = u.uid := by
    intro u
    by_cases h1 : u.uid = r <;> simp [h1]
  have hfind2 := findUser_mapUsers s (fun u => if u.uid == r then
    { u with followingCount := u.followingCount + 1 } else u) hg2uid
  have hext : userExists (mapUsers s (fun u => if u.uid == r then
      { u with followingCount := u.followingCount + 1 } else u)) t = true := by
    unfold userExists
    rw [hfind2 t, hT]
    rfl
  have ht3 := userUpdate_eq_of_exists (mapUsers s (fun u => if u.uid == r then
      { u with followingCount := u.followingCount + 1 } else u)) t
    (fun u => { u with followersCount := u.followersCount + 1 }) hext
  have hg3uid : ∀ u : UserRec, ((fun u : UserRec => if u.uid == t then
      { u with followersCount := u.followersCount + 1 } else u) u).uid = u.uid := by
    intro u
    by_cases h1 : u.uid = t <;> simp [h1]
  have hfind3 := findUser_mapUsers (mapUsers s (fun u => if u.uid == r then
      { u with followingCount := u.followingCount + 1 } else u))
    (fun u => if u.uid == t then
      { u with followersCount := u.followersCount + 1 } else u) hg3uid
  have hreq3 : findRequest (mapUsers (mapUsers s (fun u => if u.uid == r then
      { u with followingCount := u.followingCount + 1 } else u))
      (fun u => if u.uid == t then
        { u with followersCount := u.followersCount + 1 } else u)) r t = some q := hq
  have hupd : requestUpdateStatus (mapUsers (mapUsers s (fun u => if u.uid == r then
      { u with followingCount := u.followingCount + 1 } else u))
      (fun u => if u.uid == t then
        { u with followersCount := u.followersCount + 1 } else u)) r t .accepted
      = .ok { (mapUsers (mapUsers s (fun u => if u.uid == r then
          { u with followingCount := u.followingCount + 1 } else u))
          (fun u => if u.uid == t then
            { u with followersCount := u.followersCount + 1 } else u)) with
          followRequests := s.followRequests.map (fun q2 =>
            if q2.requesterId == r && q2.targetId == t then
              { q2 with status := ReqStatus.accepted } else q2) } := by
    unfold requestUpdateStatus
    rw [hreq3]
    rfl
  have hrun : acceptFollowRequest t r s = .ok { (mapUsers (mapUsers s
      (fun u => if u.uid == r then
        { u with followingCount := u.followingCount + 1 } else u))
      (fun u => if u.uid == t then
        { u with followersCount := u.followersCount + 1 } else u)) with
      followRequests := s.followRequests.map (fun q2 =>
        if q2.requesterId == r && q2.targetId == t then
          { q2 with status := ReqStatus.accepted } else q2) } := by
    unfold acceptFollowRequest
    rw [hq]
    simp only [hpend]
    rw [hup, ht2]
    simp only []
    rw [ht3]
    simp only []
    exact hupd
  refine ⟨_, hrun, rfl, rfl, rfl, ?_, ?_, ?_⟩
  · show findUser (mapUsers (mapUsers s _) _) r = _
    rw [hfind3 r, hfind2 r, hR]
    have hrne : (uR.uid == t) = false := by
      rw [beq_eq_false_iff_ne, huidR]
      exact hrt
    simp [Option.map, huidR, hrne, hrt]
  · show findUser (mapUsers (mapUsers s _) _) t = _
    rw [hfind3 t, hfind2 t, hT]
    have htne : (uT.uid == r) = false := by
      rw [beq_eq_false_iff_ne, huidT]
      exact fun hh => hrt hh.symm
    simp [Option.map, huidT, htne, Ne.symm hrt]
  · have hg : ∀ q2 : FollowRequestRow,
        ((fun q3 : FollowRequestRow => if q3.requesterId == r && q3.targetId == t then
          { q3 with status := ReqStatus.accepted } else q3) q2).requesterId = q2.requesterId ∧
        ((fun q3 : FollowRequestRow => if q3.requesterId == r && q3.targetId == t then
          { q3 with status := ReqStatus.accepted } else q3) q2).targetId = q2.targetId := by
      intro q2
      by_cases h1 : (q2.requesterId == r && q2.targetId == t) = true <;> simp [h1]
    have hmap := findRequest_map_requests
      (mapUsers (mapUsers s (fun u => if u.uid == r then
        { u with followingCount := u.followingCount + 1 } else u))
        (fun u => if u.uid == t then
          { u with followersCount := u.followersCount + 1 } else u))
      { (mapUsers (mapUsers s (fun u => if u.uid == r then
          { u with followingCount := u.followingCount + 1 } else u))
          (fun u => if u.uid == t then
            { u with followersCount := u.followersCount + 1 } else u)) with
        followRequests := s.followRequests.map (fun q3 =>
          if q3.requesterId == r && q3.targetId == t then
            { q3 with status := ReqStatus.accepted } else q3) }
      (fun q3 => if q3.requesterId == r && q3.targetId == t then
        { q3 with status := ReqStatus.accepted } else q3) rfl hg r t
    rw [hmap, hreq3]
    have hpq := findRequest_pred s r t q hq
    simp [Option.map, hpq]

/-- C5: for a private, existing target with no A→B FollowEdge,
`follow(A,B)` upserts the FollowRequest (A,B) to PENDING, returns the
request-created result, creates no FollowEdge and changes no user row
(hence no counters). -/
theorem follow_private_spec (a b : Nat) (s : DB) (uB : UserRec)
    (hab : a ≠ b)
    (hB : findUser s b = some uB) (hpriv : uB.isPrivate = true)
    (hnf : followerExists s a b = false) :
    follow a b s = .ok (.requestCreated, requestUpsertPending s a b) ∧
    (requestUpsertPending s a b).users = s.users ∧
    (requestUpsertPending s a b).followers = s.followers ∧
    (requestUpsertPending s a b).blocks = s.blocks ∧
    (requestUpsertPending s a b).closeFriends = s.closeFriends ∧
    ((findRequest (requestUpsertPending s a b) a b).map (fun q => q.status))
      = some ReqStatus.pending := by
  obtain ⟨hu, hf, hbk, hcf⟩ := requestUpsertPending_fields s a b
  have habne : (a == b) = false := by
    rw [beq_eq_false_iff_ne]
    exact hab
  refine ⟨?_, hu, hf, hbk, hcf, ?_⟩
  · unfold follow followFrom
    rw [habne]
    simp only [Bool.false_eq_true, if_false]
    rw [hB]
    simp only []
    rw [hnf]
    simp only [Bool.false_eq_true, if_false, hpriv, if_true]
  · unfold requestUpsertPending
    by_cases hex : (findRequest s a b).isSome = true
    · rw [if_pos hex]
      obtain ⟨q0, hq0⟩ := Option.isSome_iff_exists.1 hex
      have hg : ∀ q2 : FollowRequestRow,
          ((fun q3 : FollowRequestRow => if q3.requesterId == a && q3.targetId == b then
            { q3 with status := ReqStatus.pending } else q3) q2).requesterId = q2.requesterId ∧
          ((fun q3 : FollowRequestRow => if q3.requesterId == a && q3.targetId == b then
            { q3 with status := ReqStatus.pending } else q3) q2).targetId = q2.targetId := by
        intro q2
        by_cases h1 : (q2.requesterId == a && q2.targetId == b) = true <;> simp [h1]
      have hmap := findRequest_map_requests s
        { s with followRequests := s.followRequests.map (fun q3 =>
            if q3.requesterId == a && q3.targetId == b then
              { q3 with status := ReqStatus.pending } else q3) }
        (fun q3 => if q3.requesterId == a && q3.targetId == b then
          { q3 with status := ReqStatus.pending } else q3) rfl hg a b
      rw [hmap, hq0]
      have hpq := findRequest_pred s a b q0 hq0
      simp [Option.map, hpq]
    · rw [if_neg hex]
      have hnone : findRequest s a b = none := by
        cases hc : findRequest s a b
        · rfl
        · rw [hc] at hex
          exact absurd rfl hex
      unfold findRequest at hnone ⊢
      show ((s.followRequests ++
          ([⟨s.nextId, a, b, ReqStatus.pending⟩] : List FollowRequestRow)).find?
          (fun q => q.requesterId == a && q.targetId == b)).map
          (fun q : FollowRequestRow => q.status)
        = some ReqStatus.pending
      rw [List.find?_append, hnone]
      simp

/-- C8: for a non-empty input batch, `addManyToCloseFriends` deduplicates
the ids (keeping first occurrences), drops the owner's own id, filters
to existing users, inserts the remaining pairs skipping duplicates, and
increments `closeFriendsCount(owner)` by exactly the number of rows
actually inserted, reporting that number as `created` (and the
deduplicated count as `requested`). -/
theorem addManyToCloseFriends_spec (o : Nat) (ids : List Nat) (s : DB) (uO : UserRec)
    (hne : ids.isEmpty = false)
    (hneu : (uniqueCloseFriendIds o ids).isEmpty = false)
    (hnet : (toInsertCloseFriendIds o ids s).isEmpty = false)
    (hO : findUser s o = some uO) :
    ∃ s', addManyToCloseFriends o ids s = .ok
      ({ created := ((toInsertCloseFriendIds o ids s).filter (fun i => !(cfExists s o i))).length,
         requested := (uniqueCloseFriendIds o ids).length }, s') ∧
      s'.closeFriends = s.closeFriends ++
        ((toInsertCloseFriendIds o ids s).filter
          (fun i => !(cfExists s o i))).map (fun i => (⟨o, i⟩ : CloseFriendEdge)) ∧
      s'.followers = s.followers ∧ s'.blocks = s.blocks ∧
      s'.followRequests = s.followRequests ∧
      findUser s' o = some { uO with closeFriendsCount := uO.closeFriendsCount +
        (((toInsertCloseFriendIds o ids s).filter (fun i => !(cfExists s o i))).length : Int) } := by
  have huidO : uO.uid = o := findUser_uid s o uO hO
  obtain ⟨hn, hs⟩ := cfCreateMany_spec o _ s (toInsert_nodup o ids s)
  by_cases hpos : 0 < (cfCreateMany s o (toInsertCloseFriendIds o ids s)).1
  · have hexo : userExists (cfCreateMany s o (toInsertCloseFriendIds o ids s)).2 o = true := by
      unfold userExists
      rw [findUser_usersEq s _ (by rw [hs]) o, hO]
      rfl
    have hupd := userUpdate_eq_of_exists (cfCreateMany s o (toInsertCloseFriendIds o ids s)).2 o
      (fun u => { u with closeFriendsCount := u.closeFriendsCount +
        ((cfCreateMany s o (toInsertCloseFriendIds o ids s)).1 : Int) }) hexo
    have hg : ∀ u : UserRec, ((fun u : UserRec => if u.uid == o then
        { u with closeFriendsCount := u.closeFriendsCount +
          ((cfCreateMany s o (toInsertCloseFriendIds o ids s)).1 : Int) } else u) u).uid
        = u.uid := by
      intro u
      by_cases h1 : u.uid = o <;> simp [h1]
    have hrun : addManyToCloseFriends o ids s = .ok
        ({ created := (cfCreateMany s o (toInsertCloseFriendIds o ids s)).1,
           requested := (uniqueCloseFriendIds o ids).length },
         mapUsers (cfCreateMany s o (toInsertCloseFriendIds o ids s)).2
           (fun u => if u.uid == o then
             { u with closeFriendsCount := u.closeFriendsCount +
               ((cfCreateMany s o (toInsertCloseFriendIds o ids s)).1 : Int) } else u)) := by
      unfold addManyToCloseFriends
      rw [hne, hneu, hnet]
      simp only [Bool.false_eq_true, if_false, if_pos hpos]
      rw [hupd]
    rw [hn] at hrun
    refine ⟨_, hrun, ?_, ?_, ?_, ?_, ?_⟩
    · show (cfCreateMany s o (toInsertCloseFriendIds o ids s)).2.closeFriends = _
      rw [hs]
    · show (cfCreateMany s o (toInsertCloseFriendIds o ids s)).2.followers = _
      rw [hs]
    · show (cfCreateMany s o (toInsertCloseFriendIds o ids s)).2.blocks = _
      rw [hs]
    · show (cfCreateMany s o (toInsertCloseFriendIds o ids s)).2.followRequests = _
      rw [hs]
    · have hfm := findUser_mapUsers (cfCreateMany s o (toInsertCloseFriendIds o ids s)).2
        (fun u => if u.uid == o then
          { u with closeFriendsCount := u.closeFriendsCount +
            ((cfCreateMany s o (toInsertCloseFriendIds o ids s)).1 : Int) } else u) hg o
      rw [hn] at hfm
      rw [hfm, findUser_usersEq s _ (by rw [hs]) o, hO]
      simp [Option.map, huidO]
  · have hz : (cfCreateMany s o (toInsertCloseFriendIds o ids s)).1 = 0 := by
      omega
    have hlen0 : ((toInsertCloseFriendIds o ids s).filter
        (fun i => !(cfExists s o i))).length = 0 := by
      rw [← hn]
      exact hz
    have hmapnil : ((toInsertCloseFriendIds o ids s).filter
        (fun i => !(cfExists s o i))).map (fun i => (⟨o, i⟩ : CloseFriendEdge)) = [] := by
      rw [← List.length_eq_zero, List.length_map]
      exact hlen0
    have hrun : addManyToCloseFriends o ids s = .ok
        ({ created := (cfCreateMany s o (toInsertCloseFriendIds o ids s)).1,
           requested := (uniqueCloseFriendIds o ids).length },
         (cfCreateMany s o (toInsertCloseFriendIds o ids s)).2) := by
      unfold addManyToCloseFriends
      rw [hne, hneu, hnet]
      simp only [Bool.false_eq_true, if_false, if_neg hpos]
    rw [hn] at hrun
    refine ⟨_, hrun, ?_, ?_, ?_, ?_, ?_⟩
    · show (cfCreateMany s o (toInsertCloseFriendIds o ids s)).2.closeFriends = _
      rw [hs]
    · show (cfCreateMany s o (toInsertCloseFriendIds o ids s)).2.followers = _
      rw [hs]
    · show (cfCreateMany s o (toInsertCloseFriendIds o ids s)).2.blocks = _
      rw [hs]
    · show (cfCreateMany s o (toInsertCloseFriendIds o ids s)).2.followRequests = _
      rw [hs]
    · rw [findUser_usersEq s _ (by rw [hs]) o, hO, hlen0]
      simp

/-- C2 amended: when the pre-transaction checks pass (distinct users,
public existing target, no edge at check time) but a concurrent
identical follow has inserted the edge before the transaction body runs,
the `tx.follower.create` unique violation propagates out of `follow` as
an error — the service catches nothing; the idempotent success outcome
exists only on the pre-check path, when the edge is already visible at
check time. -/
theorem followFrom_race (a b : Nat) (s0 s1 : DB) (uB : UserRec)
    (hab : a ≠ b) (hB : findUser s0 b = some uB) (hpub : uB.isPrivate = false) :
    (followerExists s0 a b = true →
      followFrom a b s0 s1 = .ok (.alreadyFollowing, s1)) ∧
    (followerExists s0 a b = false → followerExists s1 a b = true →
      followFrom a b s0 s1 = .error .uniqueViolation) := by
  have habne : (a == b) = false := by
    rw [beq_eq_false_iff_ne]
    exact hab
  constructor
  · intro hex
    unfold followFrom
    rw [habne]
    simp only [Bool.false_eq_true, if_false]
    rw [hB]
    simp only []
    rw [hex]
    rfl
  · intro hno hyes
    have hcr : followerCreate s1 a b = .error .uniqueViolation := by
      unfold followerCreate
      rw [hyes]
      rfl
    unfold followFrom
    rw [habne]
    simp only [Bool.false_eq_true, if_false]
    rw [hB]
    simp only []
    rw [hno]
    simp only [Bool.false_eq_true, if_false, hpub]
    rw [hcr]

theorem clampTake_pos (limit : Nat) : 1 ≤ clampTake limit := by
  unfold clampTake
  split <;> omega

theorem pageFull_nextCursor {α β : Type} (rows : List α) (takeN : Nat) (f : α → β)
    (hpos : 1 ≤ takeN) :
    ((if rows.length == takeN then (rows.getLast?).map f else none) ≠ none ↔
      rows.length = takeN) := by
  by_cases hL : rows.length = takeN
  · have hne : rows ≠ [] := by
      intro h
      rw [h] at hL
      simp at hL
      omega
    have hsome := List.getLast?_isSome.2 hne
    cases hgl : rows.getLast? with
    | none =>
      rw [hgl] at hsome
      cases hsome
    | some v => simp [hL, hgl]
  · have hbne : (rows.length == takeN) = false := by
      rw [beq_eq_false_iff_ne]
      exact hL
    simp [hbne, hL]

theorem relNextCursor {β : Type} (rows : List FollowEdge) (limit : Nat)
    (f : FollowEdge → β) (hlim : 1 ≤ limit) (hle : rows.length ≤ limit + 1) :
    ((if limit < rows.length then ((rows.take limit).getLast?).map f else none) ≠ none ↔
      rows.length = limit + 1) := by
  by_cases hM : limit < rows.length
  · have hlen : rows.length = limit + 1 := by omega
    have htl : (rows.take limit).length = limit := by
      rw [List.length_take]
      omega
    have hne : rows.take limit ≠ [] := by
      intro h
      rw [h] at htl
      simp at htl
      omega
    have hsome := List.getLast?_isSome.2 hne
    cases hgl : (rows.take limit).getLast? with
    | none =>
      rw [hgl] at hsome
      cases hsome
    | some v => simp [hM, hgl, hlen]
  · simp only [hM, if_false]
    constructor
    · intro h
      exact absurd rfl h
    · intro h
      omega

/-- C4 amended: the follow-request listings fetch at most `take` rows
(exactly `take` when enough rows remain) and their `nextCursor` is
non-null iff the page is exactly full; the relations follower/following
listings instead fetch up to `limit + 1` rows (one more than the page
size) and their `nextCursor` is non-null iff the fetched row count is
`limit + 1`. -/
theorem listing_fetch_contract (userId : Nat) (cursor : Option Nat) (limit : Nat) (s : DB)
    (hlim : 1 ≤ limit) :
    ((listIncomingRows userId cursor limit s).length ≤ clampTake limit ∧
      ((listIncomingFollowRequests userId cursor limit s).2 ≠ none ↔
        (listIncomingRows userId cursor limit s).length = clampTake limit)) ∧
    ((listOutgoingRows userId cursor limit s).length ≤ clampTake limit ∧
      ((listOutgoingFollowRequests userId cursor limit s).2 ≠ none ↔
        (listOutgoingRows userId cursor limit s).length = clampTake limit)) ∧
    ((relGetFollowersRows userId cursor limit s).length ≤ limit + 1 ∧
      ((relGetFollowers userId cursor limit s).2 ≠ none ↔
        (relGetFollowersRows userId cursor limit s).length = limit + 1)) ∧
    ((relGetFollowingRows userId cursor limit s).length ≤ limit + 1 ∧
      ((relGetFollowing userId cursor limit s).2 ≠ none ↔
        (relGetFollowingRows userId cursor limit s).length = limit + 1)) := by
  refine ⟨⟨?_, ?_⟩, ⟨?_, ?_⟩, ⟨?_, ?_⟩, ⟨?_, ?_⟩⟩
  · unfold listIncomingRows
    rw [List.length_take]
    exact Nat.min_le_left _ _
  · exact pageFull_nextCursor (listIncomingRows userId cursor limit s) (clampTake limit)
      (fun q => q.rid) (clampTake_pos limit)
  · unfold listOutgoingRows
    rw [List.length_take]
    exact Nat.min_le_left _ _
  · exact pageFull_nextCursor (listOutgoingRows userId cursor limit s) (clampTake limit)
      (fun q => q.rid) (clampTake_pos limit)
  · unfold relGetFollowersRows
    rw [List.length_take]
    exact Nat.min_le_left _ _
  · refine relNextCursor (relGetFollowersRows userId cursor limit s) limit
      (fun e => e.eid) hlim ?_
    unfold relGetFollowersRows
    rw [List.length_take]
    exact Nat.min_le_left _ _
  · unfold relGetFollowingRows
    rw [List.length_take]
    exact Nat.min_le_left _ _
  · refine relNextCursor (relGetFollowingRows userId cursor limit s) limit
      (fun e => e.eid) hlim ?_
    unfold relGetFollowingRows
    rw [List.length_take]
    exact Nat.min_le_left _ _

/-- C9 amended: the public followers/following listings succeed iff the
target exists and is public; a private target — including the case
`viewerId == targetId`, and regardless of any follow relationship —
fails with `ForbiddenException` (`PermissionDenied`), and a missing
target fails with `NotFoundException`. -/
theorem publicListings_visibility (viewer target : Nat) (cursor : Option Nat)
    (limit : Nat) (s : DB) :
    (findUser s target = none →
      getFollowersOfUser viewer target cursor limit s = .error .notFound ∧
      getFollowingOfUser viewer target cursor limit s = .error .notFound) ∧
    (∀ u, findUser s target = some u → u.isPrivate = true →
      getFollowersOfUser viewer target cursor limit s = .error .forbidden ∧
      getFollowingOfUser viewer target cursor limit s = .error .forbidden) ∧
    (∀ u, findUser s target = some u → u.isPrivate = false →
      (getFollowersOfUser viewer target cursor limit s).isOk = true ∧
      (getFollowingOfUser viewer target cursor limit s).isOk = true) := by
  refine ⟨?_, ?_, ?_⟩
  · intro hnone
    constructor
    · unfold getFollowersOfUser
      rw [hnone]
    · unfold getFollowingOfUser
      rw [hnone]
  · intro u hsome hpriv
    constructor
    · unfold getFollowersOfUser
      rw [hsome]
      simp [hpriv]
    · unfold getFollowingOfUser
      rw [hsome]
      simp [hpriv]
  · intro u hsome hpub
    constructor
    · unfold getFollowersOfUser
      rw [hsome]
      simp [hpub, Except.isOk, Except.toBool]
    · unfold getFollowingOfUser
      rw [hsome]
      simp [hpub, Except.isOk, Except.toBool]

/-- C7: the block endpoint rejects a self-block with
`BadRequestException` (`InvalidOperation`) before reaching the service,
so no edge or counter changes. -/
theorem blockAddEndpoint_self (a : Nat) (s : DB) :
    blockAddEndpoint a a s = .error .badRequest := by
  unfold blockAddEndpoint
  simp

/-- C1 amended: starting from a consistent state (counters matching the
edge sets, at most one follow edge per ordered pair), every committed
engine operation preserves `followingCount`/`followersCount` =
follow-edge counts and `closeFriendsCount` = close-friend-edge count,
EXCEPT that (i) `acceptFollowRequest` must not find the accepted
request's follow edge already present (otherwise the upsert is a no-op
while the counters are still incremented), and (ii) `blockUser` must
find no close-friend edge between the pair (otherwise it deletes those
edges without decrementing `closeFriendsCount`). -/
theorem counters_invariant_after_op (op : GraphOp) (s s' : DB)
    (hpairs : FollowPairsNodup s) (hOk : CountersOk s)
    (hAcc : ∀ t r, op = GraphOp.acceptOp t r → followerExists s r t = false)
    (hBlk : ∀ x y, op = GraphOp.blockOp x y →
      s.closeFriends.countP (fun e =>
        (e.ownerId == x && e.friendId == y) || (e.ownerId == y && e.friendId == x)) = 0)
    (hcommit : applyOp op s = .ok s') : CountersOk s' := by
  cases op with
  | followOp a b =>
    simp only [applyOp] at hcommit
    cases hres : follow a b s with
    | error e =>
      rw [hres] at hcommit
      cases hcommit
    | ok p =>
      rw [hres] at hcommit
      simp only [Except.map] at hcommit
      injection hcommit with h
      subst h
      exact follow_countersOk a b s p.2 p.1 hOk hres
  | unfollowOp a b =>
    exact unfollow_countersOk a b s s' hpairs hOk hcommit
  | acceptOp t r =>
    exact accept_countersOk t r s s' hOk (hAcc t r rfl) hcommit
  | rejectOp t r =>
    exact reject_countersOk t r s s' hOk hcommit
  | cancelOp r t =>
    exact cancel_countersOk r t s s' hOk hcommit
  | blockOp x y =>
    simp only [applyOp] at hcommit
    cases hres : blockAddEndpoint x y s with
    | error e =>
      rw [hres] at hcommit
      cases hcommit
    | ok p =>
      rw [hres] at hcommit
      simp only [Except.map] at hcommit
      injection hcommit with h
      subst h
      exact block_countersOk x y s p.2 p.1 hOk (hBlk x y rfl) hres
  | unblockOp a b =>
    simp only [applyOp] at hcommit
    cases hres : unblockUser a b s with
    | error e =>
      rw [hres] at hcommit
      cases hcommit
    | ok p =>
      rw [hres] at hcommit
      simp only [Except.map] at hcommit
      injection hcommit with h
      subst h
      exact unblock_countersOk a b s p.2 p.1 hOk hres
  | addCloseFriendsOp o ids =>
    simp only [applyOp] at hcommit
    cases hres : addManyToCloseFriends o ids s with
    | error e =>
      rw [hres] at hcommit
      cases hcommit
    | ok p =>
      rw [hres] at hcommit
      simp only [Except.map] at hcommit
      injection hcommit with h
      subst h
      exact addCF_countersOk o ids s p.2 p.1 hOk hres
  | removeCloseFriendsOp o ids =>
    simp only [applyOp] at hcommit
    cases hres : removeManyFromCloseFriends o ids s with
    | error e =>
      rw [hres] at hcommit
      cases hcommit
    | ok p =>
      rw [hres] at hcommit
      simp only [Except.map] at hcommit
      injection hcommit with h
      subst h
      exact removeCF_countersOk o ids s p.2 p.1 hOk hres



/-- C1 counterexample: from a consistent state holding a close-friend
edge, a committed block leaves `closeFriendsCount` above the true
close-friend edge count — the invariant as claimed fails after `block`. -/
theorem C1_counterexample :
    FollowPairsNodup exC1 ∧ CountersOk exC1 ∧
    applyOp (GraphOp.blockOp 1 2) exC1 = .ok exC1After ∧
    ¬ CloseFriendsCountsOk exC1After :=
  ⟨by decide, by decide, by rfl, by decide⟩



/-- Witness for the amended C1 theorem at a concrete committed follow. -/
theorem C1_witness :
    FollowPairsNodup exTwoUsers ∧ CountersOk exTwoUsers ∧ CountersOk exTwoUsersFollowed :=
  ⟨by decide, by decide,
    counters_invariant_after_op (GraphOp.followOp 1 2) exTwoUsers exTwoUsersFollowed
      (by decide) (by decide)
      (by intro t r h; cases h) (by intro x y h; cases h) (by rfl)⟩



/-- C2 counterexample: with a public existing target and no edge at
check time, but the edge present when the transaction runs, `follow`
returns the P2002 error — not a success outcome as the claim states. -/
theorem C2_counterexample :
    (findUser exC2Pre 2).map (fun u => u.isPrivate) = some false ∧
    followerExists exC2Pre 1 2 = false ∧
    followerExists exC2Tx 1 2 = true ∧
    followFrom 1 2 exC2Pre exC2Tx = .error .uniqueViolation :=
  ⟨by decide, by decide, by decide, by rfl⟩

/-- Witness for the amended C2 theorem at the concrete race. -/
theorem C2_witness :
    followFrom 1 2 exC2Pre exC2Tx = .error .uniqueViolation :=
  (followFrom_race 1 2 exC2Pre exC2Tx ⟨2, false, 0, 0, 0, 0⟩
    (by decide) (by rfl) (by rfl)).2 (by decide) (by decide)


/-- Witness for C3 at a concrete mutual-follow state. -/
theorem C3_witness :
    ∃ s', blockUser 1 2 exC3 = .ok (some ⟨1, 2⟩, s') ∧
      s'.blocks = exC3.blocks ++ [⟨1, 2⟩] := by
  obtain ⟨s', h1, h2, _⟩ :=
    (blockUser_spec 1 2 exC3 ⟨1, false, 1, 1, 0, 1⟩ ⟨2, false, 1, 1, 0, 0⟩
      (by decide) (by rfl) (by rfl)).2 (by decide)
  exact ⟨s', h1, h2⟩


/-- C4 counterexample: `RelationsService.getFollowers` with `limit = 1`
fetches 2 rows (`limit + 1`, not `limit`), and its `nextCursor` is
non-null although the fetched row count differs from `limit`. -/
theorem C4_counterexample :
    (relGetFollowersRows 1 none 1 exC4).length = 2 ∧
    ¬ (relGetFollowersRows 1 none 1 exC4).length = 1 ∧
    (relGetFollowers 1 none 1 exC4).2 = some 6 :=
  ⟨by decide, by decide, by rfl⟩

/-- Witness for the amended C4 theorem at concrete arguments. -/
theorem C4_witness :
    (listIncomingRows 1 none 20 exC4).length ≤ clampTake 20 ∧
    ((relGetFollowers 1 none 1 exC4).2 ≠ none ↔
      (relGetFollowersRows 1 none 1 exC4).length = 1 + 1) :=
  ⟨(listing_fetch_contract 1 none 20 exC4 (by decide)).1.1,
   (listing_fetch_contract 1 none 1 exC4 (by decide)).2.2.1.2⟩


/-- Witness for C5 at a concrete private target. -/
theorem C5_witness :
    follow 1 2 exC5 = .ok (.requestCreated, requestUpsertPending exC5 1 2) ∧
    ((findRequest (requestUpsertPending exC5 1 2) 1 2).map (fun q => q.status))
      = some ReqStatus.pending := by
  obtain ⟨h1, _, _, _, _, h6⟩ :=
    follow_private_spec 1 2 exC5 ⟨2, true, 0, 0, 0, 0⟩ (by decide) (by rfl)
      (by rfl) (by decide)
  exact ⟨h1, h6⟩


/-- Witness for C6 at a concrete followed pair. -/
theorem C6_witness :
    ∃ s', unfollow 1 2 exC6 = .ok s' ∧
      findUser s' 1 = some ⟨1, false, 0, 0, 0, 0⟩ ∧
      findUser s' 2 = some ⟨2, false, 0, 0, 0, 0⟩ := by
  obtain ⟨s', h1, _, _, _, _, h6, h7, _⟩ :=
    (unfollow_spec 1 2 exC6 ⟨1, false, 0, 1, 0, 0⟩ ⟨2, false, 1, 0, 0, 0⟩
      (by decide) (by decide) (by decide) (by rfl) (by rfl)).2 (by decide) (by decide)
  exact ⟨s', h1, h6, h7⟩

/-- Witness for C8: the spec scenario — owner 1, input `[2,3,2,1]`, only
user 2 existing besides the owner: effective set `{2}`, `created = 1`,
`requested = 2`, and `closeFriendsCount(1)` rises by exactly 1. -/
theorem C8_witness :
    ∃ s', addManyToCloseFriends 1 [2, 3, 2, 1] exTwoUsers = .ok
      ({ created := 1, requested := 2 }, s') ∧
      findUser s' 1 = some ⟨1, false, 0, 0, 0, 1⟩ := by
  obtain ⟨s', h1, _, _, _, _, h6⟩ :=
    addManyToCloseFriends_spec 1 [2, 3, 2, 1] exTwoUsers ⟨1, false, 0, 0, 0, 0⟩
      (by decide) (by decide) (by decide) (by rfl)
  exact ⟨s', h1, h6⟩


/-- C9 counterexample: a private user listing their own followers
(viewer = target = 2) gets `ForbiddenException`, although the claim says
the call succeeds whenever `viewerId == targetId`. -/
theorem C9_counterexample :
    (findUser exC9 2).isSome = true ∧
    getFollowersOfUser 2 2 none 20 exC9 = .error .forbidden ∧
    getFollowingOfUser 2 2 none 20 exC9 = .error .forbidden :=
  ⟨by decide, by rfl, by rfl⟩

/-- Witness for the amended C9 theorem at concrete arguments. -/
theorem C9_witness :
    getFollowersOfUser 2 2 none 20 exC9 = .error .forbidden :=
  ((publicListings_visibility 2 2 none 20 exC9).2.1 ⟨2, true, 0, 0, 0, 0⟩
    (by rfl) (by rfl)).1


/-- Witness for C10 at a concrete edge-plus-pending-request state: the
edge set is unchanged while both counters rise to 2. -/
theorem C10_witness :
    ∃ s', acceptFollowRequest 2 1 exC10 = .ok s' ∧
      s'.followers = exC10.followers ∧
      findUser s' 1 = some ⟨1, false, 0, 2, 0, 0⟩ ∧
      findUser s' 2 = some ⟨2, true, 2, 0, 0, 0⟩ ∧
      ((findRequest s' 1 2).map (fun q => q.status)) = some ReqStatus.accepted := by
  obtain ⟨s', h1, h2, _, _, h5, h6, h7⟩ :=
    acceptFollowRequest_spec 2 1 exC10 ⟨6, 1, 2, .pending⟩
      ⟨1, false, 0, 1, 0, 0⟩ ⟨2, true, 1, 0, 0, 0⟩
      (by decide) (by rfl) (by rfl) (by decide) (by rfl) (by rfl)
  exact ⟨s', h1, h2, h5, h6, h7⟩
